import Mathlib

/-!
# Futsal booking: availability, conflicts, slots and booking creation

A shallow embedding of the booking core of `go-futsal-booking-app`:

* `internal/domain` : `Booking`, `Field`, `Payment`, `Schedule` and their methods;
* `internal/repository` : the SQL statements of `bookingRepository`, `fieldRepository`
  and `paymentRepository`, run against a table state `DB`;
* `internal/service` : `bookingService.CreateBooking` and the methods `UpdateField`,
  `DeleteField`, `SetupSchedules` and `FindAvailableSlots` of `fieldService`, written (as in
  the source) against the repository interfaces.

Conventions.

* An instant (`time.Time`) is an integer number of nanoseconds since the Unix epoch, `Before`
  is `<` and `Add` is addition; a table column of type timestamp stores the instant it is
  given. Calendar readings (`Weekday`, `Clock`, `Date`) are taken in UTC.
* A `float64` is the rational it stands for, and each operation rounds its exact result to
  53 bits, ties to even.
* Go's `int` and `time.Duration` are 64-bit: every product the source computes is reduced
  with `wrapInt64`.
* An `error` value is a message with the chain of errors it wraps (`fmt.Errorf` with `%w`).
* The text of a `WHERE` clause is kept as the list of its items, in source order, and is
  read by `parseWhere` the way the SQL grammar reads it.
* A service method is a function of the repositories it is given, of the store and of the
  clock; it returns its result, the store it leaves and the repository calls it made.
  `sqlService` is the service over the SQL repositories of the source.
-/

namespace FutsalBooking

/-! ## Domain (`internal/domain`) -/

/-- An instant, in nanoseconds since the Unix epoch. -/
abbrev Time := Int

/-- The constant `time.Hour`, in nanoseconds. -/
def Hour : Int := 3600000000000

/-- Two's-complement reduction of an integer to the range of `int64`. -/
def wrapInt64 (x : Int) : Int := (x + 2 ^ 63) % 2 ^ 64 - 2 ^ 63

/-- The four values of `domain.BookingStatus`. -/
inductive BookingStatus where
  | PENDING
  | CONFIRMED
  | CANCELLED
  | COMPLETED
  deriving DecidableEq, Repr

/-- The three values of `domain.PaymentStatus`. -/
inductive PaymentStatus where
  | PENDING
  | SUCCESS
  | FAILED
  deriving DecidableEq, Repr

/-- The struct `domain.Booking`; `PaymentID` is the nullable pointer field. -/
structure Booking where
  ID : Int
  UserID : Int
  FieldID : Int
  StartTime : Time
  EndTime : Time
  TotalPrice : Int
  Status : BookingStatus
  PaymentID : Option Int
  CreatedAt : Time
  deriving DecidableEq, Repr

/-- The struct `domain.Field`. -/
structure Field where
  ID : Int
  OwnerID : Int
  Name : String
  Address : String
  Description : String
  PricePerHour : Int
  ImageURL : String
  CreatedAt : Time
  deriving DecidableEq, Repr

/-- The struct `domain.Payment`. -/
structure Payment where
  ID : Int
  BookingID : Int
  Amount : Int
  PaymentGateway : String
  TransactionID : String
  Status : PaymentStatus
  CreatedAt : Time
  UpdatedAt : Time
  deriving DecidableEq, Repr

/-- The struct `domain.Schedule`; `DayOfWeek` is the integer type `domain.DayOfWeek`
(`Sunday = 0` ... `Saturday = 6`). -/
structure Schedule where
  ID : Int
  FieldID : Int
  DayOfWeek : Int
  OpenTime : Time
  CloseTime : Time
  deriving DecidableEq, Repr

/-- The method `Field.CalculatePrice`: `f.PricePerHour * hours` in Go's 64-bit `int`. -/
def Field.CalculatePrice (f : Field) (hours : Int) : Int :=
  wrapInt64 (f.PricePerHour * hours)

/-- The constant `time.Second`, in nanoseconds. -/
def Second : Int := 1000000000

/-- The constant `time.Minute`, in nanoseconds. -/
def Minute : Int := 60000000000

/-- The method `Field.IsOwnedBy`. -/
def Field.IsOwnedBy (f : Field) (userID : Int) : Bool := f.OwnerID == userID

/-- The method `time.Time.Weekday`, as an integer with Sunday = 0: day 0 of the epoch,
1 January 1970, is a Thursday. -/
def Time.Weekday (t : Time) : Int := (t / (24 * Hour) + 4) % 7

/-- The method `time.Time.Clock`: hour, minute and second within the day. -/
def Time.Clock (t : Time) : Int × Int × Int :=
  let sec := t / Second % 86400
  (sec / 3600, sec % 3600 / 60, sec % 60)

/-- The call `time.Date(date.Year(), date.Month(), date.Day(), hour, min, 0, 0,
date.Location())`: the start of the calendar day of `date`, plus `hour` hours and `min`
minutes. -/
def Time.Date (date : Time) (hour min : Int) : Time :=
  date / (24 * Hour) * (24 * Hour) + hour * Hour + min * Minute

/-- The largest `time.Duration`. -/
def maxDuration : Int := 2 ^ 63 - 1

/-- The smallest `time.Duration`. -/
def minDuration : Int := -(2 ^ 63)

/-- The method `time.Time.Sub`: the duration `t - u`, replaced by the largest or smallest
duration when it does not fit in 64 bits. -/
def Time.Sub (t u : Time) : Int :=
  if t - u > maxDuration then maxDuration
  else if t - u < minDuration then minDuration
  else t - u

/-- The method `Schedule.IsOpen`. -/
def Schedule.IsOpen (s : Schedule) (t : Time) : Bool :=
  let day := Time.Weekday t
  if day ≠ s.DayOfWeek then
    false
  else
    let (checkHour, checkMin, checkSec) := Time.Clock t
    let checkTime := checkHour * 3600 + checkMin * 60 + checkSec
    let (openHour, openMin, openSec) := Time.Clock s.OpenTime
    let openTimeInSec := openHour * 3600 + openMin * 60 + openSec
    let (closeHour, closeMin, closeSec) := Time.Clock s.CloseTime
    let closeTimeInSec := closeHour * 3600 + closeMin * 60 + closeSec
    decide (checkTime ≥ openTimeInSec) && decide (checkTime ≤ closeTimeInSec)

/-- The method `Booking.CanBeCancelled`. -/
def Booking.CanBeCancelled (b : Booking) (now : Time) : Bool :=
  if b.Status ≠ .PENDING ∧ b.Status ≠ .CONFIRMED then
    false
  else
    let timeUntilStart := Time.Sub b.StartTime now
    let minCancellationTime := 2 * Hour
    decide (timeUntilStart > minCancellationTime)

/-- The method `Booking.IsActive`. -/
def Booking.IsActive (b : Booking) (now : Time) : Bool :=
  b.Status == .CONFIRMED && decide (now > b.StartTime) && decide (now < b.EndTime)

/-! ## `float64` arithmetic and the duration of a booking

A `float64` value is the rational number it stands for. Every operation returns the exact
result rounded to the nearest number with a 53-bit significand, ties to the even significand;
the exponent range of the format is not modelled, as the hours of a `time.Duration` stay far
inside it. -/

/-- The binary exponent `e` of a nonzero rational: `2 ^ e ≤ |q| < 2 ^ (e + 1)`. -/
def binade (q : ℚ) : Int := Int.log 2 |q|

/-- The integer nearest to a rational, the even one of the two when it lies half way. -/
def roundHalfEven (x : ℚ) : Int :=
  if x - ⌊x⌋ < 1 / 2 then ⌊x⌋
  else if 1 / 2 < x - ⌊x⌋ then ⌊x⌋ + 1
  else if ⌊x⌋ % 2 = 0 then ⌊x⌋
  else ⌊x⌋ + 1

/-- Rounding to `float64`: the nearest multiple of `2 ^ (e - 52)`, where `e` is the binary
exponent of the number, ties to the even multiple. -/
def roundFloat64 (q : ℚ) : ℚ :=
  if q = 0 then 0 else roundHalfEven (q / 2 ^ (binade q - 52)) * 2 ^ (binade q - 52)

/-- The conversion `float64(n)` of an integer. -/
def float64OfInt (n : Int) : ℚ := roundFloat64 n

/-- The conversion `int(x)` of a `float64`: the fraction is dropped. -/
def intOfFloat64 (x : ℚ) : Int := if 0 ≤ x then ⌊x⌋ else ⌈x⌉

/-- The method `time.Duration.Hours`:
`hour := d / Hour; nsec := d % Hour; return float64(hour) + float64(nsec)/(60*60*1e9)`,
with the integer division and remainder of Go, which truncate toward zero. -/
def Duration.Hours (d : Int) : ℚ :=
  let hour := d.tdiv Hour
  let nsec := d.tmod Hour
  roundFloat64 (float64OfInt hour + roundFloat64 (float64OfInt nsec / 3600000000000))

/-- The method `Booking.GetDuration`. -/
def Booking.GetDuration (b : Booking) : ℚ :=
  let duration := Time.Sub b.EndTime b.StartTime
  Duration.Hours duration

/-- The method `Booking.GetDurationHours`. -/
def Booking.GetDurationHours (b : Booking) : Int :=
  let duration := b.GetDuration
  let hours := intOfFloat64 duration
  if duration > float64OfInt hours then hours + 1 else hours

/-- An `error`: a message, or a message wrapping another error with `%w`. -/
inductive Err where
  | msg (text : String)
  | wrap (text : String) (inner : Err)
  deriving DecidableEq, Repr

/-! ## Table state and the SQL items the repositories use -/

/-- The tables the booking core reads and writes, with the last value handed out by the
id sequence of `bookings`, of `payments` and of `schedules` (their `INSERT` statements end in
`RETURNING id`). The source declares no constraint on any table. -/
structure DB where
  fields : List Field
  bookings : List Booking
  payments : List Payment
  bookingSeq : Int
  paymentSeq : Int
  schedules : List Schedule
  scheduleSeq : Int
  deriving DecidableEq, Repr

/-- Which statements the driver fails on (connection or I/O error), one flag per statement
the booking core sends. -/
structure Faults where
  fieldFindByID : Bool
  checkAvailability : Bool
  findConflicting : Bool
  bookingCreate : Bool
  paymentCreate : Bool
  bookingUpdate : Bool
  fieldUpdate : Bool
  fieldDelete : Bool
  scheduleCreate : Bool
  scheduleFind : Bool
  scheduleDelete : Bool
  deriving DecidableEq, Repr

/-- No driver failure. -/
def Faults.none : Faults :=
  ⟨false, false, false, false, false, false, false, false, false, false, false⟩

/-- The error a driver failure surfaces as. -/
def driverError : Err := .msg "driver: bad connection"

/-- The error the server answers a statement it cannot read with. -/
def statementError : Err := .msg "pq: statement is not valid SQL"

/-- The columns of `bookings` that the two availability queries compare. -/
inductive Column where
  | field_id
  | start_time
  | end_time
  deriving DecidableEq, Repr

/-- Comparison operators of the availability queries. -/
inductive Cmp where
  | eq
  | lt
  | gt
  deriving DecidableEq, Repr

/-- One item of the text of a `WHERE` clause: a comparison of a column with the
placeholder `$param`, the test `status IN (...)`, the keyword `AND`, or a comma. -/
inductive Item where
  | cmp (col : Column) (op : Cmp) (param : Nat)
  | statusIn (values : List BookingStatus)
  | AND
  | comma
  deriving DecidableEq, Repr

/-- Whether an item is a condition (rather than `AND` or a comma). -/
def Item.isCond : Item → Bool
  | .cmp _ _ _ => true
  | .statusIn _ => true
  | _ => false

/-- Reads `cond (AND cond)*`, the only shape of `WHERE` clause the grammar accepts among
lists of these items; returns the conditions, or `none` when the text is rejected. -/
def parseWhere : List Item → Option (List Item)
  | [c] => if c.isCond then some [c] else none
  | c :: .AND :: rest =>
    if c.isCond then (parseWhere rest).map (fun cs => c :: cs) else none
  | _ => none

/-- The value of a column in a row of `bookings`. -/
def Column.value (b : Booking) : Column → Int
  | .field_id => b.FieldID
  | .start_time => b.StartTime
  | .end_time => b.EndTime

/-- Comparison of two values. -/
def Cmp.holds : Cmp → Int → Int → Bool
  | .eq, x, y => decide (x = y)
  | .lt, x, y => decide (x < y)
  | .gt, x, y => decide (x > y)

/-- Whether a row satisfies one condition, `args` being the values bound to `$1, $2, ...`. -/
def Item.holds (args : List Int) (b : Booking) : Item → Bool
  | .cmp col op param => op.holds (col.value b) (args.getD (param - 1) 0)
  | .statusIn values => decide (b.Status ∈ values)
  | _ => false

/-- Whether a row satisfies every condition of a parsed clause. -/
def rowMatches (conds : List Item) (args : List Int) (b : Booking) : Bool :=
  conds.all (fun c => c.holds args b)

/-- Inserts a row into a list already ordered by `start_time`, after the rows that do not
start later. -/
def insertByStart (b : Booking) : List Booking → List Booking
  | [] => [b]
  | x :: xs => if b.StartTime < x.StartTime then b :: x :: xs else x :: insertByStart b xs

/-- The clause `ORDER BY start_time`. -/
def orderByStart : List Booking → List Booking
  | [] => []
  | x :: xs => insertByStart x (orderByStart xs)

/-- What `Scan` leaves in a `domain.Booking` for a row of `bookings`: the eight selected
columns; `PaymentID` is not selected and stays nil. -/
def scanBooking (row : Booking) : Booking := { row with PaymentID := none }

/-! ## `internal/repository/booking_repository.go` -/

/-- The `WHERE` clause of `CheckAvailability`, item by item:
`field_id=$1 AND status IN ('CONFIRMED', 'PENDING') AND start_time < $3, AND end_time > $2`. -/
def checkAvailabilityWhere : List Item :=
  [.cmp .field_id .eq 1, .AND, .statusIn [.CONFIRMED, .PENDING], .AND,
   .cmp .start_time .lt 3, .comma, .AND, .cmp .end_time .gt 2]

/-- The `WHERE` clause of `FindConflictingBookings`, item by item:
`field_id=$1 AND status IN ('CONFIRMED','PENDING') AND start_time < $3 AND end_time < $2`. -/
def findConflictingWhere : List Item :=
  [.cmp .field_id .eq 1, .AND, .statusIn [.CONFIRMED, .PENDING], .AND,
   .cmp .start_time .lt 3, .AND, .cmp .end_time .lt 2]

/-- The method `bookingRepository.CheckAvailability`: `SELECT COUNT(*) FROM bookings WHERE ...`
with arguments `fieldID, startTime, endTime`, then `count == 0`. A failed query makes the
method return `false` together with the wrapped error. -/
def bookingRepository.CheckAvailability (faults : Faults) (db : DB) (fieldID : Int)
    (startTime endTime : Time) : Except Err Bool :=
  if faults.checkAvailability then
    .error (.wrap "error checking availability" driverError)
  else
    match parseWhere checkAvailabilityWhere with
    | none => .error (.wrap "error checking availability" statementError)
    | some conds =>
      let count := (db.bookings.filter (rowMatches conds [fieldID, startTime, endTime])).length
      .ok (count == 0)

/-- The method `bookingRepository.FindConflictingBookings`: the rows selected by the clause,
in `ORDER BY start_time` order, each scanned into a `domain.Booking`. -/
def bookingRepository.FindConflictingBookings (faults : Faults) (db : DB) (fieldID : Int)
    (startTime endTime : Time) : Except Err (List Booking) :=
  if faults.findConflicting then
    .error (.wrap "error finding conflicting bookings" driverError)
  else
    match parseWhere findConflictingWhere with
    | none => .error (.wrap "error finding conflicting bookings" statementError)
    | some conds =>
      .ok ((orderByStart
        (db.bookings.filter (rowMatches conds [fieldID, startTime, endTime]))).map scanBooking)

/-- The method `bookingRepository.Create`: `INSERT INTO bookings (user_id, field_id, start_time,
end_time, total_price, status, created_at) ... RETURNING id`; the id scanned back is returned. -/
def bookingRepository.Create (faults : Faults) (db : DB) (booking : Booking) :
    Except Err Int × DB :=
  if faults.bookingCreate then
    (.error (.wrap "error creating booking" driverError), db)
  else
    let id := db.bookingSeq + 1
    (.ok id,
     { db with
       bookings := db.bookings ++ [{ booking with ID := id, PaymentID := none }],
       bookingSeq := id })

/-- The assignment list of `UPDATE bookings SET user_id=$1, field_id=$2, start_time=$3,
end_time=$4, total_price=$5, status=$6`, applied to one row. -/
def updateBookingRow (booking row : Booking) : Booking :=
  { row with
    UserID := booking.UserID, FieldID := booking.FieldID, StartTime := booking.StartTime,
    EndTime := booking.EndTime, TotalPrice := booking.TotalPrice, Status := booking.Status }

/-- The method `bookingRepository.Update`: the `UPDATE ... WHERE id=$7`, failing when no row
was affected. -/
def bookingRepository.Update (faults : Faults) (db : DB) (booking : Booking) :
    Except Err Unit × DB :=
  if faults.bookingUpdate then
    (.error (.wrap "error updating booking" driverError), db)
  else if db.bookings.any (fun row => row.ID == booking.ID) then
    (.ok (),
     { db with
       bookings := db.bookings.map
         (fun row => if row.ID == booking.ID then updateBookingRow booking row else row) })
  else
    (.error (.msg "bboking not found"), db)

/-! ## `internal/repository/field_repository.go` and `payment_repository..go` -/

/-- The columns selected by `fieldRepository.FindByID`:
`SELECT id, owner_id, address, description, price_per_hour, image_url, created_at`. -/
def findByIDColumns : List String :=
  ["id", "owner_id", "address", "description", "price_per_hour", "image_url", "created_at"]

/-- The destinations `FindByID` passes to `Scan`, in order. -/
def findByIDDestinations : List String :=
  ["ID", "OwnerID", "Name", "Address", "Description", "PricePerHour", "ImageURL", "CreatedAt"]

/-- The method `fieldRepository.FindByID`: `QueryRow(query, id).Scan(...)`. Without a row,
`Scan` gives `sql.ErrNoRows`; with a row, `Scan` first compares the number of selected
columns with the number of destinations and fails when they differ. -/
def fieldRepository.FindByID (faults : Faults) (db : DB) (id : Int) : Except Err Field :=
  if faults.fieldFindByID then
    .error (.wrap "error finding field" driverError)
  else
    match db.fields.find? (fun row => row.ID == id) with
    | none => .error (.msg "field not found")
    | some row =>
      if findByIDColumns.length = findByIDDestinations.length then
        .ok row
      else
        .error (.wrap "error finding field"
          (.msg "sql: expected 7 destination arguments in Scan, not 8"))

/-- The method `paymentRepository.Create`: `INSERT INTO payments (...) ... RETURNING id`. -/
def paymentRepository.Create (faults : Faults) (db : DB) (payment : Payment) :
    Except Err Int × DB :=
  if faults.paymentCreate then
    (.error (.wrap "error creating payment" driverError), db)
  else
    let id := db.paymentSeq + 1
    (.ok id,
     { db with
       payments := db.payments ++ [{ payment with ID := id }],
       paymentSeq := id })

/-- The assignment list of `UPDATE fields SET name=$1, address=$2, description=$3,
price_per_hour=$4, image_url=$5`, applied to one row. -/
def updateFieldRow (field row : Field) : Field :=
  { row with
    Name := field.Name, Address := field.Address, Description := field.Description,
    PricePerHour := field.PricePerHour, ImageURL := field.ImageURL }

/-- The method `fieldRepository.Update`: the `UPDATE ... WHERE id=$6`, failing when no row was
affected. -/
def fieldRepository.Update (faults : Faults) (db : DB) (field : Field) : Except Err Unit × DB :=
  if faults.fieldUpdate then
    (.error (.wrap "error updating field" driverError), db)
  else if db.fields.any (fun row => row.ID == field.ID) then
    (.ok (),
     { db with
       fields := db.fields.map
         (fun row => if row.ID == field.ID then updateFieldRow field row else row) })
  else
    (.error (.msg "field not found"), db)

/-- The method `fieldRepository.Delete`: `DELETE FROM fields WHERE id=$1`, failing when no row
was affected. -/
def fieldRepository.Delete (faults : Faults) (db : DB) (id : Int) : Except Err Unit × DB :=
  if faults.fieldDelete then
    (.error (.wrap "error deleting field" driverError), db)
  else if db.fields.any (fun row => row.ID == id) then
    (.ok (), { db with fields := db.fields.filter (fun row => row.ID != id) })
  else
    (.error (.msg "field not found"), db)

/-- The method `fieldRepository.CreateSchedule`: `INSERT INTO schedules (field_id, day_of_week,
open_time, close_time) ... RETURNING id`. -/
def fieldRepository.CreateSchedule (faults : Faults) (db : DB) (schedule : Schedule) :
    Except Err Int × DB :=
  if faults.scheduleCreate then
    (.error (.wrap "error creating schedule" driverError), db)
  else
    let id := db.scheduleSeq + 1
    (.ok id,
     { db with
       schedules := db.schedules ++ [{ schedule with ID := id }],
       scheduleSeq := id })

/-- Inserts a row into a list already ordered by `day_of_week`, after the rows whose day is not
later. -/
def insertByDay (s : Schedule) : List Schedule → List Schedule
  | [] => [s]
  | x :: xs => if s.DayOfWeek < x.DayOfWeek then s :: x :: xs else x :: insertByDay s xs

/-- The clause `ORDER BY day_of_week`. -/
def orderByDay : List Schedule → List Schedule
  | [] => []
  | x :: xs => insertByDay x (orderByDay xs)

/-- The method `fieldRepository.FindScheduleByFieldID`: `SELECT id, field_id, day_of_week,
open_time, close_time FROM schedules WHERE field_id=$1 ORDER BY day_of_week`. -/
def fieldRepository.FindScheduleByFieldID (faults : Faults) (db : DB) (fieldID : Int) :
    Except Err (List Schedule) :=
  if faults.scheduleFind then
    .error (.wrap "error finding schedules" driverError)
  else
    .ok (orderByDay (db.schedules.filter (fun row => row.FieldID == fieldID)))

/-- The method `fieldRepository.DeleteScheduleByFieldID`: `DELETE FROM schedules WHERE
field_id=$1`, sent with `Query`; only a failure of the statement is an error. -/
def fieldRepository.DeleteScheduleByFieldID (faults : Faults) (db : DB) (fieldID : Int) :
    Except Err Unit × DB :=
  if faults.scheduleDelete then
    (.error (.wrap "error deleting schedules" driverError), db)
  else
    (.ok (), { db with schedules := db.schedules.filter (fun row => row.FieldID != fieldID) })

/-! ## `internal/service/booking_service.go` -/

/-- The methods of the interface `repository.BookingRepository` that the booking core calls,
over a store of type `σ`. `Create` returns the id it writes into the struct. -/
structure BookingRepository (σ : Type) where
  Create : σ → Booking → Except Err Int × σ
  Update : σ → Booking → Except Err Unit × σ
  CheckAvailability : σ → Int → Time → Time → Except Err Bool
  FindConflictingBookings : σ → Int → Time → Time → Except Err (List Booking)

/-- The methods of the interface `repository.FieldRepository` that the two services call.
`CreateSchedule` returns the id it writes into the struct. -/
structure FieldRepository (σ : Type) where
  FindByID : σ → Int → Except Err Field
  Update : σ → Field → Except Err Unit × σ
  Delete : σ → Int → Except Err Unit × σ
  CreateSchedule : σ → Schedule → Except Err Int × σ
  FindScheduleByFieldID : σ → Int → Except Err (List Schedule)
  DeleteScheduleByFieldID : σ → Int → Except Err Unit × σ

/-- The method of the interface `repository.PaymentRepository` that `CreateBooking` calls. -/
structure PaymentRepository (σ : Type) where
  Create : σ → Payment → Except Err Int × σ

/-- The struct `service.bookingService`: the three repositories it is built from. -/
structure bookingService (σ : Type) where
  bookingRepo : BookingRepository σ
  fieldRepo : FieldRepository σ
  paymentRepo : PaymentRepository σ

/-- The five readings of `time.Now()` that one run of `CreateBooking` takes, in order. -/
structure Clock where
  validation : Time
  bookingCreatedAt : Time
  transaction : Time
  paymentCreatedAt : Time
  paymentUpdatedAt : Time
  deriving DecidableEq, Repr

/-- A repository call made by the service, with its arguments. -/
inductive Call where
  | fieldFindByID (id : Int)
  | checkAvailability (fieldID : Int) (startTime endTime : Time)
  | bookingCreate (booking : Booking)
  | paymentCreate (payment : Payment)
  | bookingUpdate (booking : Booking)
  | fieldUpdate (field : Field)
  | fieldDelete (id : Int)
  | scheduleCreate (schedule : Schedule)
  | scheduleFindByFieldID (fieldID : Int)
  | scheduleDeleteByFieldID (fieldID : Int)
  deriving DecidableEq, Repr

/-- What a run of a service method leaves: its result, the store, and the repository calls
it made, in order. -/
structure Outcome (σ α : Type) where
  result : Except Err α
  store : σ
  calls : List Call

/-- Whether a call writes to the store. -/
def Call.isWrite : Call → Bool
  | .bookingCreate _ => true
  | .paymentCreate _ => true
  | .bookingUpdate _ => true
  | .fieldUpdate _ => true
  | .fieldDelete _ => true
  | .scheduleCreate _ => true
  | .scheduleDeleteByFieldID _ => true
  | _ => false

/-- The payments passed to `paymentRepo.Create` among a list of calls. -/
def paymentsCreated : List Call → List Payment
  | [] => []
  | .paymentCreate p :: rest => p :: paymentsCreated rest
  | _ :: rest => paymentsCreated rest

/-- The bookings passed to `bookingRepo.Create` among a list of calls. -/
def bookingsCreated : List Call → List Booking
  | [] => []
  | .bookingCreate b :: rest => b :: bookingsCreated rest
  | _ :: rest => bookingsCreated rest

/-- The text `fmt.Sprintf("TRX-%d-%d", booking.ID, time.Now().Unix())`. -/
def transactionID (bookingID : Int) (now : Time) : String :=
  "TRX-" ++ toString bookingID ++ "-" ++ toString (now / 1000000000)

/-- The method `bookingService.CreateBooking`. -/
def bookingService.CreateBooking {σ : Type} (u : bookingService σ) (clock : Clock) (store : σ)
    (userID fieldID : Int) (startTime : Time) (durationHours : Int) : Outcome σ Booking :=
  if userID ≤ 0 then
    ⟨.error (.msg "invalid user ID"), store, []⟩
  else if fieldID ≤ 0 then
    ⟨.error (.msg "invalid field ID"), store, []⟩
  else if durationHours ≤ 0 then
    ⟨.error (.msg "duration must be at least 1 hour"), store, []⟩
  else if startTime < clock.validation then
    ⟨.error (.msg "cannot book in the past"), store, []⟩
  else
    let endTime := startTime + wrapInt64 (durationHours * Hour)
    let c1 := [Call.fieldFindByID fieldID]
    match u.fieldRepo.FindByID store fieldID with
    | .error _ => ⟨.error (.msg "field not found"), store, c1⟩
    | .ok field =>
      let c2 := c1 ++ [Call.checkAvailability fieldID startTime endTime]
      match u.bookingRepo.CheckAvailability store fieldID startTime endTime with
      | .error err => ⟨.error (.wrap "error checking availability" err), store, c2⟩
      | .ok false => ⟨.error (.msg "time slot is not available"), store, c2⟩
      | .ok true =>
        let totalPrice := field.CalculatePrice durationHours
        let booking : Booking :=
          { ID := 0, UserID := userID, FieldID := fieldID, StartTime := startTime,
            EndTime := endTime, TotalPrice := totalPrice, Status := .PENDING,
            PaymentID := none, CreatedAt := clock.bookingCreatedAt }
        let c3 := c2 ++ [Call.bookingCreate booking]
        match u.bookingRepo.Create store booking with
        | (.error err, store1) => ⟨.error (.wrap "error creating booking" err), store1, c3⟩
        | (.ok bookingID, store1) =>
          let booking := { booking with ID := bookingID }
          let payment : Payment :=
            { ID := 0, BookingID := booking.ID, Amount := totalPrice,
              PaymentGateway := "Midtrans",
              TransactionID := transactionID booking.ID clock.transaction,
              Status := .PENDING, CreatedAt := clock.paymentCreatedAt,
              UpdatedAt := clock.paymentUpdatedAt }
          let c4 := c3 ++ [Call.paymentCreate payment]
          match u.paymentRepo.Create store1 payment with
          | (.error err, store2) => ⟨.error (.wrap "error creating payment" err), store2, c4⟩
          | (.ok paymentID, store2) =>
            let booking := { booking with PaymentID := some paymentID }
            let c5 := c4 ++ [Call.bookingUpdate booking]
            match u.bookingRepo.Update store2 booking with
            | (.error err, store3) => ⟨.error (.wrap "error updating booking" err), store3, c5⟩
            | (.ok _, store3) => ⟨.ok booking, store3, c5⟩

/-- The repository `NewBookingRepository` returns, over one database. -/
def sqlBookingRepository (faults : Faults) : BookingRepository DB :=
  { Create := bookingRepository.Create faults
    Update := bookingRepository.Update faults
    CheckAvailability := bookingRepository.CheckAvailability faults
    FindConflictingBookings := bookingRepository.FindConflictingBookings faults }

/-- The repository `NewFieldRepository` returns, over one database. -/
def sqlFieldRepository (faults : Faults) : FieldRepository DB :=
  { FindByID := fieldRepository.FindByID faults
    Update := fieldRepository.Update faults
    Delete := fieldRepository.Delete faults
    CreateSchedule := fieldRepository.CreateSchedule faults
    FindScheduleByFieldID := fieldRepository.FindScheduleByFieldID faults
    DeleteScheduleByFieldID := fieldRepository.DeleteScheduleByFieldID faults }

/-- The service built from the three SQL repositories of `internal/repository`
(`NewBookingRepository`, `NewFieldRepository`, `NewPaymentRepository`) over one database. -/
def sqlService (faults : Faults) : bookingService DB :=
  { bookingRepo := sqlBookingRepository faults
    fieldRepo := sqlFieldRepository faults
    paymentRepo := { Create := paymentRepository.Create faults } }

/-- A service whose repositories answer every call with success: the field lookup returns
`field`, every window is reported free, and the inserts hand out the ids `bookingID` and
`paymentID`. The store is the number of writes received. -/
def answeringService (field : Field) (bookingID paymentID : Int) : bookingService Nat :=
  { bookingRepo :=
      { Create := fun n _ => (.ok bookingID, n + 1)
        Update := fun n _ => (.ok (), n + 1)
        CheckAvailability := fun _ _ _ _ => .ok true
        FindConflictingBookings := fun _ _ _ _ => .ok [] }
    fieldRepo :=
      { FindByID := fun _ _ => .ok field
        Update := fun n _ => (.ok (), n + 1)
        Delete := fun n _ => (.ok (), n + 1)
        CreateSchedule := fun n _ => (.ok 1, n + 1)
        FindScheduleByFieldID := fun _ _ => .ok []
        DeleteScheduleByFieldID := fun n _ => (.ok (), n + 1) }
    paymentRepo := { Create := fun n _ => (.ok paymentID, n + 1) } }

/-! ## `internal/service/field_usecase.go` -/

/-- The struct `service.ScheduleInput`. -/
structure ScheduleInput where
  DayOfWeek : Int
  OpenTime : String
  CloseTime : String
  deriving DecidableEq, Repr

/-- The struct `service.TimeSlot`. -/
structure TimeSlot where
  StartTime : Time
  EndTime : Time
  Available : Bool
  deriving DecidableEq, Repr

/-- The struct `service.fieldService`: the two repositories `NewFieldService` is given. -/
structure fieldService (σ : Type) where
  fieldRepo : FieldRepository σ
  bookingRepo : BookingRepository σ

/-- The function `unicode.IsSpace`. -/
def isSpace (c : Char) : Bool :=
  c.toNat == 9 || c.toNat == 10 || c.toNat == 11 || c.toNat == 12 || c.toNat == 13 ||
  c.toNat == 32 || c.toNat == 0x85 || c.toNat == 0xA0 || c.toNat == 0x1680 ||
  (0x2000 ≤ c.toNat && c.toNat ≤ 0x200A) || c.toNat == 0x2028 || c.toNat == 0x2029 ||
  c.toNat == 0x202F || c.toNat == 0x205F || c.toNat == 0x3000

/-- The test `strings.TrimSpace(s) == ""`: every character of `s` is a space. -/
def isBlank (s : String) : Bool := s.toList.all isSpace

/-- Midnight of 1 January of year 0 (UTC), the day `time.Parse` gives to a clock time. -/
def yearZero : Time := -62167219200 * Second

/-- The value of a decimal digit. -/
def digitValue (c : Char) : Option Int :=
  if c.isDigit then some (c.toNat - 48) else none

/-- The hour and minute `time.Parse("15:04", value)` reads: an hour of one or two digits, a
colon, a minute of exactly two digits, and nothing after. -/
def parseHourMinute : List Char → Option (Int × Int)
  | [h1, ':', m1, m2] =>
    match digitValue h1, digitValue m1, digitValue m2 with
    | some a, some c, some d => some (a, 10 * c + d)
    | _, _, _ => none
  | [h1, h2, ':', m1, m2] =>
    match digitValue h1, digitValue h2, digitValue m1, digitValue m2 with
    | some a, some b, some c, some d => some (10 * a + b, 10 * c + d)
    | _, _, _, _ => none
  | _ => none

/-- The call `time.Parse("15:04", value)`: the clock time on 1 January of year 0, or `none`
when the text is not read or the hour is not below 24 or the minute not below 60. -/
def parseClock (value : String) : Option Time :=
  match parseHourMinute value.toList with
  | none => none
  | some (hour, min) =>
    if hour < 24 ∧ min < 60 then some (yearZero + hour * Hour + min * Minute) else none

/-- The method `fieldService.UpdateField`. -/
def fieldService.UpdateField {σ : Type} (u : fieldService σ) (store : σ) (fieldID ownerID : Int)
    (name address description imageURL : String) (pricePerHour : Int) : Outcome σ Field :=
  if fieldID ≤ 0 then
    ⟨.error (.msg "invalid field ID"), store, []⟩
  else
    let c1 := [Call.fieldFindByID fieldID]
    match u.fieldRepo.FindByID store fieldID with
    | .error _ => ⟨.error (.msg "field not found"), store, c1⟩
    | .ok field =>
      if !field.IsOwnedBy ownerID then
        ⟨.error (.msg "unauthorized: you are not the owner of this field"), store, c1⟩
      else if isBlank name then
        ⟨.error (.msg "field name cannot be empty"), store, c1⟩
      else if isBlank address then
        ⟨.error (.msg "field address cannot be empty"), store, c1⟩
      else if pricePerHour ≤ 0 then
        ⟨.error (.msg "price per hour must be positive"), store, c1⟩
      else
        let field :=
          { field with
            Name := name, Address := address, Description := description,
            PricePerHour := pricePerHour, ImageURL := imageURL }
        let c2 := c1 ++ [Call.fieldUpdate field]
        match u.fieldRepo.Update store field with
        | (.error err, store1) => ⟨.error (.wrap "error updating field" err), store1, c2⟩
        | (.ok _, store1) => ⟨.ok field, store1, c2⟩

/-- The method `fieldService.DeleteField`. -/
def fieldService.DeleteField {σ : Type} (u : fieldService σ) (store : σ) (fieldID ownerID : Int) :
    Outcome σ Unit :=
  if fieldID ≤ 0 then
    ⟨.error (.msg "invalid field ID"), store, []⟩
  else
    let c1 := [Call.fieldFindByID fieldID]
    match u.fieldRepo.FindByID store fieldID with
    | .error _ => ⟨.error (.msg "field not found"), store, c1⟩
    | .ok field =>
      if !field.IsOwnedBy ownerID then
        ⟨.error (.msg "unauthorized: you are not the owner of this field"), store, c1⟩
      else
        let c2 := c1 ++ [Call.fieldDelete fieldID]
        match u.fieldRepo.Delete store fieldID with
        | (.error err, store1) => ⟨.error (.wrap "error deleting field" err), store1, c2⟩
        | (.ok _, store1) => ⟨.ok (), store1, c2⟩

/-- The loop `for _, input := range schedules` of `SetupSchedules`, from the store and the
calls made so far. -/
def fieldService.setupSchedulesLoop {σ : Type} (u : fieldService σ) (fieldID : Int) :
    List ScheduleInput → σ → List Call → Outcome σ Unit
  | [], store, calls => ⟨.ok (), store, calls⟩
  | input :: rest, store, calls =>
    if input.DayOfWeek < 0 ∨ input.DayOfWeek > 6 then
      ⟨.error (.msg ("invalid day of week: " ++ toString input.DayOfWeek)), store, calls⟩
    else
      match parseClock input.OpenTime with
      | none => ⟨.error (.msg ("invalid open time format: " ++ input.OpenTime)), store, calls⟩
      | some openTime =>
        match parseClock input.CloseTime with
        | none =>
          ⟨.error (.msg ("invalid close time format: " ++ input.CloseTime)), store, calls⟩
        | some closeTime =>
          if closeTime < openTime ∨ closeTime = openTime then
            ⟨.error (.msg "close time must be after open time"), store, calls⟩
          else
            let schedule : Schedule :=
              { ID := 0, FieldID := fieldID, DayOfWeek := input.DayOfWeek,
                OpenTime := openTime, CloseTime := closeTime }
            let calls1 := calls ++ [Call.scheduleCreate schedule]
            match u.fieldRepo.CreateSchedule store schedule with
            | (.error err, store1) =>
              ⟨.error (.wrap "error creating schedule" err), store1, calls1⟩
            | (.ok _, store1) => fieldService.setupSchedulesLoop u fieldID rest store1 calls1

/-- The method `fieldService.SetupSchedules`. -/
def fieldService.SetupSchedules {σ : Type} (u : fieldService σ) (store : σ)
    (fieldID ownerID : Int) (schedules : List ScheduleInput) : Outcome σ Unit :=
  if fieldID ≤ 0 then
    ⟨.error (.msg "invalid field ID"), store, []⟩
  else
    let c1 := [Call.fieldFindByID fieldID]
    match u.fieldRepo.FindByID store fieldID with
    | .error _ => ⟨.error (.msg "field not found"), store, c1⟩
    | .ok field =>
      if !field.IsOwnedBy ownerID then
        ⟨.error (.msg "unauthorized: you are not the owner of this field"), store, c1⟩
      else if schedules.length = 0 then
        ⟨.error (.msg "at least one schedule is required"), store, c1⟩
      else
        let c2 := c1 ++ [Call.scheduleDeleteByFieldID fieldID]
        match u.fieldRepo.DeleteScheduleByFieldID store fieldID with
        | (.error err, store1) =>
          ⟨.error (.wrap "error deleting old schedules" err), store1, c2⟩
        | (.ok _, store1) => u.setupSchedulesLoop fieldID schedules store1 c2

/-- The loop `for currentSlot.Before(endOfDay)` of `FindAvailableSlots`, run for at most
`fuel` rounds; a round that would start without fuel left ends in the error
"slot loop out of fuel". -/
def fieldService.slotLoop {σ : Type} (u : fieldService σ) (store : σ) (fieldID : Int)
    (endOfDay : Time) : Nat → Time → List TimeSlot → List Call → Outcome σ (List TimeSlot)
  | 0, currentSlot, slots, calls =>
    if currentSlot < endOfDay then
      ⟨.error (.msg "slot loop out of fuel"), store, calls⟩
    else
      ⟨.ok slots, store, calls⟩
  | fuel + 1, currentSlot, slots, calls =>
    if currentSlot < endOfDay then
      let slotEnd := currentSlot + 1 * Hour
      let calls1 := calls ++ [Call.checkAvailability fieldID currentSlot slotEnd]
      match u.bookingRepo.CheckAvailability store fieldID currentSlot slotEnd with
      | .error err => ⟨.error (.wrap "error checking availability" err), store, calls1⟩
      | .ok available =>
        fieldService.slotLoop u store fieldID endOfDay fuel slotEnd
          (slots ++ [{ StartTime := currentSlot, EndTime := slotEnd, Available := available }])
          calls1
    else
      ⟨.ok slots, store, calls⟩

/-- The number of rounds the slot loop makes from `currentSlot`: the hours, rounded up, that
separate it from `endOfDay`. -/
def slotRounds (currentSlot endOfDay : Time) : Nat :=
  ((endOfDay - currentSlot + (Hour - 1)) / Hour).toNat

/-- The method `fieldService.FindAvailableSlots`; the slot loop is given the fuel
`slotRounds`, which it never exhausts. -/
def fieldService.FindAvailableSlots {σ : Type} (u : fieldService σ) (store : σ) (fieldID : Int)
    (date : Time) : Outcome σ (List TimeSlot) :=
  if fieldID ≤ 0 then
    ⟨.error (.msg "invalid field ID"), store, []⟩
  else
    let c1 := [Call.scheduleFindByFieldID fieldID]
    match u.fieldRepo.FindScheduleByFieldID store fieldID with
    | .error err => ⟨.error (.wrap "error fecthing schedules" err), store, c1⟩
    | .ok schedules =>
      let dayOfWeek := Time.Weekday date
      match schedules.find? (fun schedule => schedule.DayOfWeek == dayOfWeek) with
      | none => ⟨.ok [], store, c1⟩
      | some relevantSchedule =>
        let (openHour, openMin, _) := Time.Clock relevantSchedule.OpenTime
        let (closeHour, closeMin, _) := Time.Clock relevantSchedule.CloseTime
        let currentSlot := Time.Date date openHour openMin
        let endOfDay := Time.Date date closeHour closeMin
        u.slotLoop store fieldID endOfDay (slotRounds currentSlot endOfDay) currentSlot [] c1

/-- The field service over the SQL repositories of `internal/repository`
(`NewFieldService(NewFieldRepository(db), NewBookingRepository(db))`). -/
def sqlFieldService (faults : Faults) : fieldService DB :=
  { fieldRepo := sqlFieldRepository faults
    bookingRepo := sqlBookingRepository faults }

/-- A field lookup that returns the row with the given id. -/
def rowLookup (db : DB) (id : Int) : Except Err Field :=
  match db.fields.find? (fun row => row.ID == id) with
  | none => .error (.msg "field not found")
  | some row => .ok row

/-- An availability check that counts the rows selected by the `CheckAvailability` clause
read without its comma. -/
def countingCheck (db : DB) (fieldID : Int) (startTime endTime : Time) : Except Err Bool :=
  match parseWhere (checkAvailabilityWhere.filter (fun i => i != .comma)) with
  | none => .error statementError
  | some conds =>
    .ok ((db.bookings.filter (rowMatches conds [fieldID, startTime, endTime])).length == 0)

/-- The field service over the SQL repositories, with the field lookup and the availability
check replaced by the given functions. -/
def sqlFieldServiceWith (lookup : DB → Int → Except Err Field)
    (check : DB → Int → Time → Time → Except Err Bool) (faults : Faults) : fieldService DB :=
  { fieldRepo := { sqlFieldRepository faults with FindByID := lookup }
    bookingRepo := { sqlBookingRepository faults with CheckAvailability := check } }

/-- The booking service over the SQL repositories, with the field lookup and the availability
check replaced by the given functions. -/
def sqlServiceWith (lookup : DB → Int → Except Err Field)
    (check : DB → Int → Time → Time → Except Err Bool) (faults : Faults) : bookingService DB :=
  { bookingRepo := { sqlBookingRepository faults with CheckAvailability := check }
    fieldRepo := { sqlFieldRepository faults with FindByID := lookup }
    paymentRepo := { Create := paymentRepository.Create faults } }

/-! ## Reference predicates and sample stores -/

/-- The conflict condition in the words of the specification: a booking of field `f`, in
status PENDING or CONFIRMED, whose window overlaps `[s, e)`. -/
def specConflict (f : Int) (s e : Time) (b : Booking) : Prop :=
  b.FieldID = f ∧ (b.Status = .PENDING ∨ b.Status = .CONFIRMED) ∧ b.StartTime < e ∧ b.EndTime > s

instance (f : Int) (s e : Time) (b : Booking) : Decidable (specConflict f s e b) := by
  unfold specConflict
  infer_instance

/-- Two rows that may not both be in the store: same field, both PENDING or CONFIRMED,
overlapping windows. -/
def doubleBooked (a b : Booking) : Prop :=
  specConflict a.FieldID a.StartTime a.EndTime b ∧ (a.Status = .PENDING ∨ a.Status = .CONFIRMED)

/-- The no-double-booking invariant: no two distinct rows of `bookings` are double booked. -/
def NoDoubleBooking (db : DB) : Prop :=
  db.bookings.Pairwise (fun a b => ¬ doubleBooked a b)

/-- A clock time of day on day 0, in nanoseconds: `at hh mm`. -/
def clockTime (hh mm : Int) : Time := hh * Hour + mm * 60000000000

/-- A field priced 100000 per hour, owned by user 9. -/
def sampleField : Field :=
  { ID := 1, OwnerID := 9, Name := "Lapangan A", Address := "Jl. Merdeka 1", Description := "",
    PricePerHour := 100000, ImageURL := "", CreatedAt := 0 }

/-- A booking row of user 5 with the given id, field, window and status. -/
def sampleBooking (id fieldID : Int) (startTime endTime : Time) (status : BookingStatus) :
    Booking :=
  { ID := id, UserID := 5, FieldID := fieldID, StartTime := startTime, EndTime := endTime,
    TotalPrice := 100000, Status := status, PaymentID := none, CreatedAt := 0 }

/-- A store holding the sample field and no booking. -/
def emptyStore : DB :=
  { fields := [sampleField], bookings := [], payments := [], bookingSeq := 0, paymentSeq := 0,
    schedules := [], scheduleSeq := 0 }

/-- A store holding the sample field and one CONFIRMED booking of it for 09:00-10:00. -/
def nineToTenStore : DB :=
  { fields := [sampleField],
    bookings := [sampleBooking 1 1 (clockTime 9 0) (clockTime 10 0) .CONFIRMED],
    payments := [], bookingSeq := 1, paymentSeq := 0, schedules := [], scheduleSeq := 0 }

/-- A store holding the sample field and one CONFIRMED booking of it for 07:00-08:00. -/
def sevenToEightStore : DB :=
  { fields := [sampleField],
    bookings := [sampleBooking 1 1 (clockTime 7 0) (clockTime 8 0) .CONFIRMED],
    payments := [], bookingSeq := 1, paymentSeq := 0, schedules := [], scheduleSeq := 0 }

/-- The sample field priced 2^62 per hour. -/
def costlyField : Field :=
  { sampleField with PricePerHour := 4611686018427387904 }

/-- A store holding the field priced 2^62 per hour and no booking. -/
def costlyStore : DB := { emptyStore with fields := [costlyField] }

/-- The booking `CreateBooking` passes to `bookingRepo.Create`. -/
def bookingToInsert (clock : Clock) (field : Field) (userID fieldID : Int) (startTime : Time)
    (durationHours : Int) : Booking :=
  { ID := 0, UserID := userID, FieldID := fieldID, StartTime := startTime,
    EndTime := startTime + wrapInt64 (durationHours * Hour),
    TotalPrice := field.CalculatePrice durationHours, Status := .PENDING,
    PaymentID := none, CreatedAt := clock.bookingCreatedAt }

/-- The payment `CreateBooking` passes to `paymentRepo.Create`. -/
def paymentToInsert (clock : Clock) (bookingID amount : Int) : Payment :=
  { ID := 0, BookingID := bookingID, Amount := amount, PaymentGateway := "Midtrans",
    TransactionID := transactionID bookingID clock.transaction, Status := .PENDING,
    CreatedAt := clock.paymentCreatedAt, UpdatedAt := clock.paymentUpdatedAt }

/-- The messages of the four input validations of `CreateBooking`. -/
def validationMessages : List String :=
  ["invalid user ID", "invalid field ID", "duration must be at least 1 hour",
   "cannot book in the past"]

/-- A clock whose five readings are all 08:00 of day 0. -/
def eightOClock : Clock :=
  { validation := clockTime 8 0, bookingCreatedAt := clockTime 8 0, transaction := clockTime 8 0,
    paymentCreatedAt := clockTime 8 0, paymentUpdatedAt := clockTime 8 0 }

/-- The time of day of an instant, in whole seconds since midnight. -/
def secondOfDay (t : Time) : Int := t / Second % 86400

/-- Driver failures limited to the payment insert. -/
def paymentInsertFails : Faults := { Faults.none with paymentCreate := true }

/-- Sunday 4 January 1970, 00:00. -/
def sundayMidnight : Time := 3 * (24 * Hour)

/-- A schedule row of field 1 with the given id and day, open from `openHour` to `closeHour`
o'clock (clock times on 1 January of year 0, as `time.Parse` gives them). -/
def sampleSchedule (id day openHour closeHour : Int) : Schedule :=
  { ID := id, FieldID := 1, DayOfWeek := day, OpenTime := yearZero + openHour * Hour,
    CloseTime := yearZero + closeHour * Hour }

/-- A store holding the sample field, no booking, and one schedule of the field: Sunday,
08:00-11:00. -/
def sundayStore : DB :=
  { emptyStore with schedules := [sampleSchedule 1 0 8 11], scheduleSeq := 1 }

/-- A store holding the sample field, a CONFIRMED booking of it for 09:00-10:00, and its Sunday
schedule 08:00-11:00. -/
def bookedSundayStore : DB :=
  { nineToTenStore with schedules := [sampleSchedule 1 0 8 11], scheduleSeq := 1 }

/-- The `i`-th one-hour slot counted from `start`, with the availability `avail` gives its
window. -/
def slotAt (avail : Time → Time → Bool) (start : Time) (i : Nat) : TimeSlot :=
  { StartTime := start + i * Hour, EndTime := start + (i + 1) * Hour,
    Available := avail (start + i * Hour) (start + (i + 1) * Hour) }

/-- A stored schedule row made from an input entry for field `fieldID`: the day is the
entry's and lies in 0..6, the times are the entry's clock times, and closing is after
opening. -/
def storedFrom (fieldID : Int) (row : Schedule) (input : ScheduleInput) : Prop :=
  row.FieldID = fieldID ∧ row.DayOfWeek = input.DayOfWeek ∧
  0 ≤ row.DayOfWeek ∧ row.DayOfWeek ≤ 6 ∧
  parseClock input.OpenTime = some row.OpenTime ∧
  parseClock input.CloseTime = some row.CloseTime ∧
  row.OpenTime < row.CloseTime

/-! ## The availability queries -/

/-- The server rejects the text of the `CheckAvailability` clause: a comma follows the third
condition. -/
theorem parseWhere_checkAvailabilityWhere : parseWhere checkAvailabilityWhere = none := by
  rfl

/-- The `FindConflictingBookings` clause is accepted; it selects the rows of the field in
status PENDING or CONFIRMED that start before the window ends and END BEFORE THE WINDOW
STARTS. -/
theorem findConflictingWhere_selects :
    ∃ conds, parseWhere findConflictingWhere = some conds ∧
      ∀ (f : Int) (s e : Time) (b : Booking),
        rowMatches conds [f, s, e] b = true ↔
          (b.FieldID = f ∧ (b.Status = .PENDING ∨ b.Status = .CONFIRMED) ∧
            b.StartTime < e ∧ b.EndTime < s) := by
  refine ⟨_, rfl, ?_⟩
  intro f s e b
  simp only [rowMatches, List.all_cons, List.all_nil, Item.holds, Cmp.holds, Column.value,
    List.getD, Bool.and_true, Bool.and_eq_true, decide_eq_true_eq]
  simp only [List.mem_cons, List.mem_singleton, List.not_mem_nil, or_false]
  constructor
  · rintro ⟨h1, h2, h3, h4⟩
    exact ⟨by simpa using h1, h2.symm, by simpa using h3, by simpa using h4⟩
  · rintro ⟨h1, h2, h3, h4⟩
    exact ⟨by simpa using h1, h2.symm, by simpa using h3, by simpa using h4⟩

/-- C1 (the code departs from the claim). `CheckAvailability` never returns true: on every
store, for every field and window, with or without a driver failure, it returns the wrapped
query error (and `false`). In particular it does so on a store without any booking, where the
claim requires `true`. -/
theorem checkAvailability_always_errors (faults : Faults) (db : DB) (f : Int) (s e : Time) :
    ∃ err, bookingRepository.CheckAvailability faults db f s e
      = .error (.wrap "error checking availability" err) := by
  unfold bookingRepository.CheckAvailability
  rw [parseWhere_checkAvailabilityWhere]
  split
  · exact ⟨_, rfl⟩
  · exact ⟨_, rfl⟩

/-- C2 (the code departs from the claim). With a CONFIRMED booking 09:00-10:00 on field 1 and
the window 09:30-10:30, `FindConflictingBookings` returns the empty sequence while
`CheckAvailability` does not return true; the booking is a conflict in the sense of the
specification. -/
theorem findConflicting_empty_but_not_available :
    bookingRepository.FindConflictingBookings Faults.none nineToTenStore 1
        (clockTime 9 30) (clockTime 10 30) = .ok [] ∧
    bookingRepository.CheckAvailability Faults.none nineToTenStore 1
        (clockTime 9 30) (clockTime 10 30)
      = .error (.wrap "error checking availability" statementError) ∧
    specConflict 1 (clockTime 9 30) (clockTime 10 30)
      (sampleBooking 1 1 (clockTime 9 0) (clockTime 10 0) .CONFIRMED) := by
  refine ⟨rfl, rfl, ?_⟩
  decide

/-- C3 (the code departs from the claim). For the window 09:30-10:30 on field 1,
`FindConflictingBookings` omits the CONFIRMED booking 09:00-10:00, which overlaps the window,
and returns the CONFIRMED booking 07:00-08:00, which does not. -/
theorem findConflicting_misses_overlap_and_returns_earlier :
    bookingRepository.FindConflictingBookings Faults.none nineToTenStore 1
        (clockTime 9 30) (clockTime 10 30) = .ok [] ∧
    specConflict 1 (clockTime 9 30) (clockTime 10 30)
      (sampleBooking 1 1 (clockTime 9 0) (clockTime 10 0) .CONFIRMED) ∧
    bookingRepository.FindConflictingBookings Faults.none sevenToEightStore 1
        (clockTime 9 30) (clockTime 10 30)
      = .ok [sampleBooking 1 1 (clockTime 7 0) (clockTime 8 0) .CONFIRMED] ∧
    ¬ specConflict 1 (clockTime 9 30) (clockTime 10 30)
      (sampleBooking 1 1 (clockTime 7 0) (clockTime 8 0) .CONFIRMED) := by
  refine ⟨rfl, ?_, rfl, ?_⟩ <;> decide

/-! ## `CreateBooking` against any repositories -/

/-- A value in the range of `int64` is left unchanged by `wrapInt64`. -/
theorem wrapInt64_of_fits (x : Int) (hlo : -(2 : Int) ^ 63 ≤ x) (hhi : x < (2 : Int) ^ 63) :
    wrapInt64 x = x := by
  unfold wrapInt64
  rw [Int.emod_eq_of_lt (by omega) (by omega)]
  omega

/-- Between 1 and 2562047 hours, `time.Duration(h) * time.Hour` does not overflow. -/
theorem wrapInt64_hours (h : Int) (hpos : 0 < h) (hfit : h ≤ 2562047) :
    wrapInt64 (h * Hour) = h * Hour := by
  apply wrapInt64_of_fits <;> simp only [Hour] <;> omega

/-- What a successful run of `CreateBooking` went through: the four validations passed, every
repository call succeeded, and the result is the inserted booking with the two ids set. -/
theorem createBooking_ok_inv {σ : Type} (u : bookingService σ) (clock : Clock) (store : σ)
    (userID fieldID : Int) (startTime : Time) (durationHours : Int) (b : Booking)
    (hok : (u.CreateBooking clock store userID fieldID startTime durationHours).result = .ok b) :
    ∃ (field : Field) (bookingID paymentID : Int) (store1 store2 store3 : σ),
      0 < userID ∧ 0 < fieldID ∧ 0 < durationHours ∧ clock.validation ≤ startTime ∧
      u.fieldRepo.FindByID store fieldID = .ok field ∧
      u.bookingRepo.CheckAvailability store fieldID startTime
        (startTime + wrapInt64 (durationHours * Hour)) = .ok true ∧
      u.bookingRepo.Create store
        (bookingToInsert clock field userID fieldID startTime durationHours)
        = (.ok bookingID, store1) ∧
      u.paymentRepo.Create store1
        (paymentToInsert clock bookingID (field.CalculatePrice durationHours))
        = (.ok paymentID, store2) ∧
      u.bookingRepo.Update store2 b = (.ok (), store3) ∧
      b = { bookingToInsert clock field userID fieldID startTime durationHours with
            ID := bookingID, PaymentID := some paymentID } ∧
      (u.CreateBooking clock store userID fieldID startTime durationHours).store = store3 ∧
      (u.CreateBooking clock store userID fieldID startTime durationHours).calls =
        [.fieldFindByID fieldID,
         .checkAvailability fieldID startTime (startTime + wrapInt64 (durationHours * Hour)),
         .bookingCreate (bookingToInsert clock field userID fieldID startTime durationHours),
         .paymentCreate (paymentToInsert clock bookingID (field.CalculatePrice durationHours)),
         .bookingUpdate b] := by
  unfold bookingService.CreateBooking at hok ⊢
  split_ifs at hok ⊢ with h1 h2 h3 h4
  simp only at hok ⊢
  split at hok
  · simp at hok
  · rename_i field hfield
    split at hok
    · simp at hok
    · simp at hok
    · rename_i hcheck
      split at hok
      · simp at hok
      · rename_i bookingID store1 hcreate
        split at hok
        · simp at hok
        · rename_i paymentID store2 hpay
          split at hok
          · simp at hok
          · rename_i x store3 hupd
            simp only [Except.ok.injEq] at hok
            subst hok
            refine ⟨field, bookingID, paymentID, store1, store2, store3, by omega, by omega,
              by omega, Int.not_lt.mp h4, hfield, hcheck, hcreate, hpay, ?_, rfl, ?_, ?_⟩
            · rw [hupd]
            · simp [hfield, hcheck, hcreate, hpay, hupd]
            · simp [hfield, hcheck, hcreate, hpay, hupd]
              exact ⟨rfl, rfl⟩

/-- When the availability check answers false, `CreateBooking` fails with the slot error after
the two reads, and calls no insert. -/
theorem createBooking_unavailable {σ : Type} (u : bookingService σ) (clock : Clock) (store : σ)
    (userID fieldID : Int) (startTime : Time) (durationHours : Int) (field : Field)
    (huser : 0 < userID) (hfield : 0 < fieldID) (hdur : 0 < durationHours)
    (hfuture : clock.validation ≤ startTime)
    (hfound : u.fieldRepo.FindByID store fieldID = .ok field)
    (hbusy : u.bookingRepo.CheckAvailability store fieldID startTime
      (startTime + wrapInt64 (durationHours * Hour)) = .ok false) :
    (u.CreateBooking clock store userID fieldID startTime durationHours).result
      = .error (.msg "time slot is not available") ∧
    (u.CreateBooking clock store userID fieldID startTime durationHours).store = store ∧
    (u.CreateBooking clock store userID fieldID startTime durationHours).calls
      = [.fieldFindByID fieldID,
         .checkAvailability fieldID startTime
           (startTime + wrapInt64 (durationHours * Hour))] := by
  have h1 : ¬ userID ≤ 0 := by omega
  have h2 : ¬ fieldID ≤ 0 := by omega
  have h3 : ¬ durationHours ≤ 0 := by omega
  have h4 : ¬ startTime < clock.validation := Int.not_lt.mpr hfuture
  simp [bookingService.CreateBooking, h1, h2, h3, h4, hfound, hbusy]

/-- C9. When `userID <= 0`, `fieldID <= 0` or `durationHours <= 0`, `CreateBooking` fails with
the message of the first failed validation, makes no repository call (no read, no insert, no
update) and leaves the store as it was; this holds for every implementation of the
repositories. -/
theorem createBooking_rejects_nonpositive {σ : Type} (u : bookingService σ) (clock : Clock)
    (store : σ) (userID fieldID : Int) (startTime : Time) (durationHours : Int)
    (hbad : userID ≤ 0 ∨ fieldID ≤ 0 ∨ durationHours ≤ 0) :
    (∃ text ∈ ["invalid user ID", "invalid field ID", "duration must be at least 1 hour"],
      (u.CreateBooking clock store userID fieldID startTime durationHours).result
        = .error (.msg text)) ∧
    (u.CreateBooking clock store userID fieldID startTime durationHours).calls = [] ∧
    (u.CreateBooking clock store userID fieldID startTime durationHours).store = store := by
  unfold bookingService.CreateBooking
  split_ifs with h1 h2 h3 h4
  · simp
  · simp
  · simp
  · omega
  · omega

/-- Witness of C9: user id 0 against the SQL repositories and a store with one booking. -/
theorem createBooking_rejects_nonpositive_witness :
    ((0 : Int) ≤ 0 ∨ (1 : Int) ≤ 0 ∨ (1 : Int) ≤ 0) ∧
    ((∃ text ∈ ["invalid user ID", "invalid field ID", "duration must be at least 1 hour"],
      ((sqlService Faults.none).CreateBooking eightOClock nineToTenStore 0 1
        (clockTime 11 0) 1).result = .error (.msg text)) ∧
    ((sqlService Faults.none).CreateBooking eightOClock nineToTenStore 0 1
        (clockTime 11 0) 1).calls = [] ∧
    ((sqlService Faults.none).CreateBooking eightOClock nineToTenStore 0 1
        (clockTime 11 0) 1).store = nineToTenStore) :=
  ⟨by decide, createBooking_rejects_nonpositive _ _ _ _ _ _ _ (by decide)⟩

/-- The calls of a successful `CreateBooking`, whatever the repositories: it returns a PENDING
booking whose `TotalPrice` is `field.CalculatePrice durationHours`, the Go product
`PricePerHour * durationHours` (equal to the exact product whenever that fits in 64 bits);
it calls `paymentRepo.Create` exactly once, with a PENDING payment whose `Amount` is that
price and whose `BookingID` is the id the booking insert returned, and the returned booking's
`PaymentID` is the id the payment insert returned. -/
theorem createBooking_success_calls {σ : Type} (u : bookingService σ)
    (clock : Clock) (store : σ) (userID fieldID : Int) (startTime : Time) (durationHours : Int)
    (b : Booking)
    (hok : (u.CreateBooking clock store userID fieldID startTime durationHours).result = .ok b) :
    ∃ (field : Field) (inserted : Booking) (payment : Payment) (paymentID : Int)
        (store1 store2 : σ),
      u.fieldRepo.FindByID store fieldID = .ok field ∧
      b.Status = .PENDING ∧
      b.TotalPrice = field.CalculatePrice durationHours ∧
      (-(2 : Int) ^ 63 ≤ field.PricePerHour * durationHours →
        field.PricePerHour * durationHours < (2 : Int) ^ 63 →
        b.TotalPrice = field.PricePerHour * durationHours) ∧
      bookingsCreated (u.CreateBooking clock store userID fieldID startTime durationHours).calls
        = [inserted] ∧
      u.bookingRepo.Create store inserted = (.ok b.ID, store1) ∧
      paymentsCreated (u.CreateBooking clock store userID fieldID startTime durationHours).calls
        = [payment] ∧
      payment.Status = .PENDING ∧
      payment.Amount = b.TotalPrice ∧
      payment.BookingID = b.ID ∧
      u.paymentRepo.Create store1 payment = (.ok paymentID, store2) ∧
      b.PaymentID = some paymentID := by
  obtain ⟨field, bookingID, paymentID, store1, store2, store3, -, -, -, -, hfield, -, hcreate,
    hpay, -, hb, -, hcalls⟩ := createBooking_ok_inv u clock store userID fieldID startTime
      durationHours b hok
  refine ⟨field, bookingToInsert clock field userID fieldID startTime durationHours,
    paymentToInsert clock bookingID (field.CalculatePrice durationHours), paymentID,
    store1, store2, hfield, ?_, ?_, ?_, ?_, ?_, ?_, rfl, ?_, ?_, ?_, ?_⟩
  · rw [hb]; rfl
  · rw [hb]; rfl
  · intro hlo hhi
    rw [hb]
    exact wrapInt64_of_fits _ hlo hhi
  · rw [hcalls]; rfl
  · rw [hb]; exact hcreate
  · rw [hcalls]; rfl
  · rw [hb]; rfl
  · rw [hb]; rfl
  · exact hpay
  · rw [hb]

/-- With repositories that answer every call, two hours on a field priced 100000 give a total
price and a payment amount of 200000. -/
theorem createBooking_success_calls_sample :
    ((answeringService sampleField 7 3).CreateBooking eightOClock 0 5 1 (clockTime 10 0) 2).result
      = .ok { ID := 7, UserID := 5, FieldID := 1, StartTime := clockTime 10 0,
              EndTime := clockTime 12 0, TotalPrice := 200000, Status := .PENDING,
              PaymentID := some 3, CreatedAt := clockTime 8 0 } ∧
    ∃ (field : Field) (inserted : Booking) (payment : Payment) (paymentID : Int)
        (store1 store2 : Nat),
      (answeringService sampleField 7 3).fieldRepo.FindByID 0 1 = .ok field ∧
      BookingStatus.PENDING = .PENDING ∧
      (200000 : Int) = field.CalculatePrice 2 ∧
      (-(2 : Int) ^ 63 ≤ field.PricePerHour * 2 → field.PricePerHour * 2 < (2 : Int) ^ 63 →
        (200000 : Int) = field.PricePerHour * 2) ∧
      bookingsCreated ((answeringService sampleField 7 3).CreateBooking eightOClock 0 5 1
        (clockTime 10 0) 2).calls = [inserted] ∧
      (answeringService sampleField 7 3).bookingRepo.Create 0 inserted = (.ok 7, store1) ∧
      paymentsCreated ((answeringService sampleField 7 3).CreateBooking eightOClock 0 5 1
        (clockTime 10 0) 2).calls = [payment] ∧
      payment.Status = .PENDING ∧
      payment.Amount = 200000 ∧
      payment.BookingID = 7 ∧
      (answeringService sampleField 7 3).paymentRepo.Create store1 payment
        = (.ok paymentID, store2) ∧
      some (3 : Int) = some paymentID :=
  ⟨rfl, createBooking_success_calls (answeringService sampleField 7 3)
    eightOClock 0 5 1 (clockTime 10 0) 2 _ rfl⟩

/-- C8, as the code has it. A start strictly before the clock reading is rejected: the call
fails with the message of a failed validation, "cannot book in the past" when the ids and the
duration are positive, makes no repository call and leaves the store as it was. -/
theorem createBooking_rejects_past {σ : Type} (u : bookingService σ) (clock : Clock)
    (store : σ) (userID fieldID : Int) (startTime : Time) (durationHours : Int)
    (hpast : startTime < clock.validation) :
    (∃ text ∈ validationMessages,
      (u.CreateBooking clock store userID fieldID startTime durationHours).result
        = .error (.msg text)) ∧
    (0 < userID → 0 < fieldID → 0 < durationHours →
      (u.CreateBooking clock store userID fieldID startTime durationHours).result
        = .error (.msg "cannot book in the past")) ∧
    (u.CreateBooking clock store userID fieldID startTime durationHours).calls = [] ∧
    (u.CreateBooking clock store userID fieldID startTime durationHours).store = store := by
  unfold bookingService.CreateBooking
  split_ifs with h1 h2 h3
  · refine ⟨by simp [validationMessages], ?_, rfl, rfl⟩
    intro h; omega
  · refine ⟨by simp [validationMessages], ?_, rfl, rfl⟩
    intro _ h; omega
  · refine ⟨by simp [validationMessages], ?_, rfl, rfl⟩
    intro _ _ h; omega
  · exact ⟨by simp [validationMessages], fun _ _ _ => rfl, rfl, rfl⟩

/-- Witness of C8 as amended: a start at 07:00 with the clock at 08:00. -/
theorem createBooking_rejects_past_witness :
    clockTime 7 0 < eightOClock.validation ∧
    ((∃ text ∈ validationMessages,
      ((answeringService sampleField 7 3).CreateBooking eightOClock 0 5 1 (clockTime 7 0) 1).result
        = .error (.msg text)) ∧
    ((0 : Int) < 5 → (0 : Int) < 1 → (0 : Int) < 1 →
      ((answeringService sampleField 7 3).CreateBooking eightOClock 0 5 1 (clockTime 7 0) 1).result
        = .error (.msg "cannot book in the past")) ∧
    ((answeringService sampleField 7 3).CreateBooking eightOClock 0 5 1 (clockTime 7 0) 1).calls
      = [] ∧
    ((answeringService sampleField 7 3).CreateBooking eightOClock 0 5 1 (clockTime 7 0) 1).store
      = 0) :=
  ⟨by decide, createBooking_rejects_past _ _ _ _ _ _ _ (by decide)⟩

/-- C8 as stated fails. A start exactly equal to the clock reading passes the validation:
with repositories that answer, the booking is created and three writes reach the store; with
the SQL repositories the call goes on to query the store and fails there with
"field not found", which is not an input error. -/
theorem createBooking_accepts_start_equal_to_now :
    eightOClock.validation = clockTime 8 0 ∧
    ((answeringService sampleField 7 3).CreateBooking eightOClock 0 5 1 (clockTime 8 0) 1).result
      = .ok { ID := 7, UserID := 5, FieldID := 1, StartTime := clockTime 8 0,
              EndTime := clockTime 9 0, TotalPrice := 100000, Status := .PENDING,
              PaymentID := some 3, CreatedAt := clockTime 8 0 } ∧
    ((answeringService sampleField 7 3).CreateBooking eightOClock 0 5 1 (clockTime 8 0) 1).store
      = 3 ∧
    ((sqlService Faults.none).CreateBooking eightOClock emptyStore 5 1 (clockTime 8 0) 1).result
      = .error (.msg "field not found") ∧
    ((sqlService Faults.none).CreateBooking eightOClock emptyStore 5 1 (clockTime 8 0) 1).calls
      = [.fieldFindByID 1] ∧
    "field not found" ∉ validationMessages := by
  refine ⟨rfl, rfl, rfl, rfl, rfl, by decide⟩

/-- C10, as the code has it. For `0 < durationHours <= 2562047`, the durations whose
nanosecond count fits in 64 bits, a successful `CreateBooking` returns a booking that starts at
the requested start, ends `durationHours` hours later, and so ends after it starts. -/
theorem createBooking_end_time {σ : Type} (u : bookingService σ) (clock : Clock) (store : σ)
    (userID fieldID : Int) (startTime : Time) (durationHours : Int) (b : Booking)
    (hpos : 0 < durationHours) (hfit : durationHours ≤ 2562047)
    (hok : (u.CreateBooking clock store userID fieldID startTime durationHours).result = .ok b) :
    b.StartTime = startTime ∧ b.EndTime = startTime + durationHours * Hour ∧
      b.EndTime > b.StartTime := by
  obtain ⟨field, bookingID, paymentID, store1, store2, store3, -, -, -, -, -, -, -, -, -, hb,
    -, -⟩ := createBooking_ok_inv u clock store userID fieldID startTime durationHours b hok
  have hend : b.EndTime = startTime + durationHours * Hour := by
    rw [hb]
    show startTime + wrapInt64 (durationHours * Hour) = startTime + durationHours * Hour
    rw [wrapInt64_hours durationHours hpos hfit]
  have hstart : b.StartTime = startTime := by rw [hb]; rfl
  refine ⟨hstart, hend, ?_⟩
  rw [hend, hstart]
  have : 0 < durationHours * Hour := by simp only [Hour]; omega
  exact lt_add_of_pos_right startTime this

/-- Witness of C10 as amended: the longest duration that fits, 2562047 hours. -/
theorem createBooking_end_time_witness :
    (0 : Int) < 2562047 ∧ (2562047 : Int) ≤ 2562047 ∧
    ((answeringService sampleField 7 3).CreateBooking eightOClock 0 5 1
        (clockTime 10 0) 2562047).result
      = .ok { ID := 7, UserID := 5, FieldID := 1, StartTime := clockTime 10 0,
              EndTime := clockTime 10 0 + 2562047 * Hour, TotalPrice := 256204700000,
              Status := .PENDING, PaymentID := some 3, CreatedAt := clockTime 8 0 } ∧
    (clockTime 10 0 = clockTime 10 0 ∧
      clockTime 10 0 + 2562047 * Hour = clockTime 10 0 + 2562047 * Hour ∧
      clockTime 10 0 + 2562047 * Hour > clockTime 10 0) :=
  ⟨by decide, by decide, rfl,
    createBooking_end_time (answeringService sampleField 7 3) eightOClock 0 5 1
      (clockTime 10 0) 2562047 _ (by decide) (by decide) rfl⟩

/-- C10 as stated fails. With `durationHours = 2562048` the product
`time.Duration(2562048) * time.Hour` exceeds 64 bits and wraps to a negative duration: the
call succeeds and returns a booking that ends before it starts, not 2562048 hours after. -/
theorem createBooking_end_before_start_on_overflow :
    (0 : Int) < 2562048 ∧ (2562048 : Int) < 2 ^ 63 ∧
    ((answeringService sampleField 7 3).CreateBooking eightOClock 0 5 1
        (clockTime 10 0) 2562048).result
      = .ok { ID := 7, UserID := 5, FieldID := 1, StartTime := clockTime 10 0,
              EndTime := clockTime 10 0 - 9223371273709551616, TotalPrice := 256204800000,
              Status := .PENDING, PaymentID := some 3, CreatedAt := clockTime 8 0 } ∧
    clockTime 10 0 - 9223371273709551616 < clockTime 10 0 ∧
    clockTime 10 0 - 9223371273709551616 ≠ clockTime 10 0 + 2562048 * Hour := by
  refine ⟨by decide, by decide, rfl, by decide, by decide⟩

/-! ## `CreateBooking` against the SQL repositories -/

/-- The field lookup of the SQL repository never succeeds: without a row it reports
"field not found", and with a row `Scan` is given eight destinations for seven columns. -/
theorem sqlFindByID_error (faults : Faults) (db : DB) (id : Int) :
    ∃ err, fieldRepository.FindByID faults db id = .error err := by
  have harity : ¬ findByIDColumns.length = findByIDDestinations.length := by decide
  unfold fieldRepository.FindByID
  by_cases h1 : faults.fieldFindByID = true
  · rw [if_pos h1]
    exact ⟨_, rfl⟩
  · rw [if_neg h1]
    cases db.fields.find? (fun row => row.ID == id) with
    | none => exact ⟨_, rfl⟩
    | some row => exact ⟨_, if_neg harity⟩

/-- With a row for the id and no driver failure, the lookup fails on the column count. -/
theorem sqlFindByID_existing_field :
    fieldRepository.FindByID Faults.none emptyStore 1
      = .error (.wrap "error finding field"
          (.msg "sql: expected 7 destination arguments in Scan, not 8")) := by
  rfl

/-- Against the SQL repositories every run of `CreateBooking` ends in an error, having made
at most the field lookup, and leaves the database as it was. -/
theorem sqlCreateBooking_no_write (faults : Faults) (clock : Clock) (db : DB)
    (userID fieldID : Int) (startTime : Time) (durationHours : Int) :
    (∃ err, ((sqlService faults).CreateBooking clock db userID fieldID startTime
      durationHours).result = .error err) ∧
    ((sqlService faults).CreateBooking clock db userID fieldID startTime durationHours).store
      = db ∧
    (((sqlService faults).CreateBooking clock db userID fieldID startTime durationHours).calls
        = [] ∨
      ((sqlService faults).CreateBooking clock db userID fieldID startTime durationHours).calls
        = [.fieldFindByID fieldID]) := by
  obtain ⟨err, herr⟩ := sqlFindByID_error faults db fieldID
  unfold bookingService.CreateBooking
  split_ifs with h1 h2 h3 h4
  · exact ⟨⟨_, rfl⟩, rfl, Or.inl rfl⟩
  · exact ⟨⟨_, rfl⟩, rfl, Or.inl rfl⟩
  · exact ⟨⟨_, rfl⟩, rfl, Or.inl rfl⟩
  · exact ⟨⟨_, rfl⟩, rfl, Or.inl rfl⟩
  · simp [sqlService, sqlFieldRepository, sqlBookingRepository, herr]

/-- What a successful run of `CreateBooking` over the `INSERT` and `UPDATE` statements of the
SQL repositories leaves, whatever the field lookup and the availability check are: the field
was found and the window reported free, the returned booking carries the ids the two
sequences handed out, and the database has the booking row added and then updated, the
payment row added, and both sequences advanced. -/
theorem sqlCreateBooking_ok_store (lookup : DB → Int → Except Err Field)
    (check : DB → Int → Time → Time → Except Err Bool) (faults : Faults) (clock : Clock)
    (db : DB) (userID fieldID : Int) (startTime : Time) (durationHours : Int) (b : Booking)
    (hok : ((sqlServiceWith lookup check faults).CreateBooking clock db userID fieldID startTime
      durationHours).result = .ok b) :
    ∃ field : Field,
      lookup db fieldID = .ok field ∧
      check db fieldID startTime (startTime + wrapInt64 (durationHours * Hour)) = .ok true ∧
      b = { bookingToInsert clock field userID fieldID startTime durationHours with
            ID := db.bookingSeq + 1, PaymentID := some (db.paymentSeq + 1) } ∧
      ((sqlServiceWith lookup check faults).CreateBooking clock db userID fieldID startTime
          durationHours).store
        = { db with
            bookings := (db.bookings ++
              [{ bookingToInsert clock field userID fieldID startTime durationHours with
                 ID := db.bookingSeq + 1 }]).map
              (fun (row : Booking) =>
                if row.ID == b.ID then updateBookingRow b row else row),
            bookingSeq := db.bookingSeq + 1,
            payments := db.payments ++
              [{ paymentToInsert clock (db.bookingSeq + 1)
                   (field.CalculatePrice durationHours) with ID := db.paymentSeq + 1 }],
            paymentSeq := db.paymentSeq + 1 } ∧
      ((sqlServiceWith lookup check faults).CreateBooking clock db userID fieldID startTime
          durationHours).calls
        = [.fieldFindByID fieldID,
           .checkAvailability fieldID startTime (startTime + wrapInt64 (durationHours * Hour)),
           .bookingCreate (bookingToInsert clock field userID fieldID startTime durationHours),
           .paymentCreate (paymentToInsert clock (db.bookingSeq + 1)
             (field.CalculatePrice durationHours)),
           .bookingUpdate b] := by
  obtain ⟨field, bookingID, paymentID, store1, store2, store3, -, -, -, -, hfield, hcheck,
    hcreate, hpay, hupd, hb, hstore, hcalls⟩ :=
    createBooking_ok_inv _ clock db userID fieldID startTime durationHours b hok
  have hc : (sqlServiceWith lookup check faults).bookingRepo.Create
      = bookingRepository.Create faults := rfl
  have hp : (sqlServiceWith lookup check faults).paymentRepo.Create
      = paymentRepository.Create faults := rfl
  have hu : (sqlServiceWith lookup check faults).bookingRepo.Update
      = bookingRepository.Update faults := rfl
  rw [hc] at hcreate
  rw [hp] at hpay
  rw [hu] at hupd
  unfold bookingRepository.Create at hcreate
  split_ifs at hcreate with f1
  · simp at hcreate
  simp only [Prod.mk.injEq, Except.ok.injEq] at hcreate
  obtain ⟨hid, hs1⟩ := hcreate
  subst hid hs1
  unfold paymentRepository.Create at hpay
  split_ifs at hpay with f2
  · simp at hpay
  simp only [Prod.mk.injEq, Except.ok.injEq] at hpay
  obtain ⟨hid, hs2⟩ := hpay
  subst hid hs2
  unfold bookingRepository.Update at hupd
  split_ifs at hupd with f3 hany
  · simp at hupd
  · simp only [Prod.mk.injEq, true_and] at hupd
    subst hupd
    refine ⟨field, hfield, hcheck, hb, ?_, ?_⟩
    · rw [hstore]
      rw [hb]
      rfl
    · rw [hcalls]
  · simp at hupd

/-- The `CheckAvailability` of the SQL repository answers true only for a window that
conflicts with no row of the table: it never answers true. -/
theorem sqlCheckAvailability_sound (faults : Faults) (db : DB) (f : Int) (s e : Time)
    (h : bookingRepository.CheckAvailability faults db f s e = .ok true) :
    ∀ row ∈ db.bookings, ¬ specConflict f s e row := by
  unfold bookingRepository.CheckAvailability at h
  rw [parseWhere_checkAvailabilityWhere] at h
  split at h <;> simp at h

/-- With the lookup and the check of the SQL repositories themselves, the service with the
two calls as parameters is the service over the SQL repositories. -/
theorem sqlServiceWith_source (faults : Faults) :
    sqlServiceWith (fieldRepository.FindByID faults) (bookingRepository.CheckAvailability faults)
      faults = sqlService faults :=
  rfl

/-- Against the SQL repositories themselves, every run of `CreateBooking` (with or without
driver failures) that starts from a store without two double-booked rows ends in a store
without two double-booked rows: no run gets past the two reads, so the store is the one the
run started from. -/
theorem sqlCreateBooking_keeps_noDoubleBooking (faults : Faults) (clock : Clock) (db : DB)
    (userID fieldID : Int) (startTime : Time) (durationHours : Int)
    (hinv : NoDoubleBooking db) :
    NoDoubleBooking
      ((sqlService faults).CreateBooking clock db userID fieldID startTime durationHours).store := by
  rw [(sqlCreateBooking_no_write faults clock db userID fieldID startTime durationHours).2.1]
  exact hinv

/-- C5 (the code departs from the claim). Field 1 exists and has no booking, the clock reads
08:00 and the request is for 10:00-11:00: the first `CreateBooking` already fails, with
"field not found", and inserts nothing. The lookup fails on its column count; the
availability check it would reach next fails on its malformed clause. -/
theorem createBooking_first_of_two_abutting_fails :
    ((sqlService Faults.none).CreateBooking eightOClock emptyStore 5 1 (clockTime 10 0) 1).result
      = .error (.msg "field not found") ∧
    ((sqlService Faults.none).CreateBooking eightOClock emptyStore 5 1 (clockTime 10 0) 1).store
      = emptyStore ∧
    ((sqlService Faults.none).CreateBooking eightOClock emptyStore 5 1 (clockTime 11 0) 1).result
      = .error (.msg "field not found") ∧
    emptyStore.fields = [sampleField] ∧ emptyStore.bookings = [] ∧
    fieldRepository.FindByID Faults.none emptyStore 1
      = .error (.wrap "error finding field"
          (.msg "sql: expected 7 destination arguments in Scan, not 8")) ∧
    bookingRepository.CheckAvailability Faults.none emptyStore 1 (clockTime 10 0) (clockTime 11 0)
      = .error (.wrap "error checking availability" statementError) := by
  refine ⟨rfl, rfl, rfl, rfl, rfl, rfl, rfl⟩

/-- C6 (the code departs from the claim). Field 1 has a CONFIRMED booking 09:00-10:00 and the
request is for 09:30-10:30: `CreateBooking` fails and inserts nothing, but the error is
"field not found", not "time slot is not available"; the availability check itself returns
an error rather than `false`. -/
theorem createBooking_overlap_reports_other_error :
    specConflict 1 (clockTime 9 30) (clockTime 9 30 + wrapInt64 (1 * Hour))
      (sampleBooking 1 1 (clockTime 9 0) (clockTime 10 0) .CONFIRMED) ∧
    ((sqlService Faults.none).CreateBooking eightOClock nineToTenStore 5 1
        (clockTime 9 30) 1).result = .error (.msg "field not found") ∧
    ((sqlService Faults.none).CreateBooking eightOClock nineToTenStore 5 1
        (clockTime 9 30) 1).store = nineToTenStore ∧
    bookingRepository.CheckAvailability Faults.none nineToTenStore 1 (clockTime 9 30)
        (clockTime 10 30)
      = .error (.wrap "error checking availability" statementError) := by
  refine ⟨by decide, rfl, rfl, rfl⟩

/-! ## The price and the payment of a successful `CreateBooking` -/

/-- C7 as stated fails. On a field priced 2^62 per hour, a request for 2 hours succeeds and
the Go product `PricePerHour * hours` wraps in 64 bits: the returned booking has the total
price -2^63 and the payment row stored has that amount, while `p * h` is 2^63. -/
theorem createBooking_total_price_wraps :
    rowLookup costlyStore 1 = .ok costlyField ∧
    costlyField.PricePerHour * 2 = 9223372036854775808 ∧
    ((sqlServiceWith rowLookup countingCheck Faults.none).CreateBooking eightOClock costlyStore
        5 1 (clockTime 10 0) 2).result
      = .ok { ID := 1, UserID := 5, FieldID := 1, StartTime := clockTime 10 0,
              EndTime := clockTime 12 0, TotalPrice := -9223372036854775808, Status := .PENDING,
              PaymentID := some 1, CreatedAt := clockTime 8 0 } ∧
    ((sqlServiceWith rowLookup countingCheck Faults.none).CreateBooking eightOClock costlyStore
        5 1 (clockTime 10 0) 2).store.payments
      = [{ ID := 1, BookingID := 1, Amount := -9223372036854775808,
           PaymentGateway := "Midtrans", TransactionID := transactionID 1 (clockTime 8 0),
           Status := .PENDING, CreatedAt := clockTime 8 0, UpdatedAt := clockTime 8 0 }] ∧
    (-9223372036854775808 : Int) ≠ costlyField.PricePerHour * 2 := by
  refine ⟨rfl, by decide, rfl, rfl, by decide⟩

/-- C7, as the code has it. For a field with price `p` and a duration `h` whose product
`p * h` fits in 64 bits, every successful `CreateBooking` over the `INSERT` and `UPDATE`
statements of the SQL repositories (with any field lookup and availability check) returns a
PENDING booking with `TotalPrice = p * h`; the payments table gains exactly one row, PENDING,
with `Amount = p * h` and `BookingID` the id of the returned booking, and the returned
booking's `PaymentID` is the id of that row; `paymentRepo.Create` is called once, and the row
of the returned booking is in the bookings table, which has one row more. -/
theorem createBooking_success_booking_and_payment (lookup : DB → Int → Except Err Field)
    (check : DB → Int → Time → Time → Except Err Bool) (faults : Faults) (clock : Clock)
    (db : DB) (userID fieldID : Int) (startTime : Time) (durationHours : Int) (field : Field)
    (b : Booking)
    (hfound : lookup db fieldID = .ok field)
    (hlo : -(2 : Int) ^ 63 ≤ field.PricePerHour * durationHours)
    (hhi : field.PricePerHour * durationHours < (2 : Int) ^ 63)
    (hok : ((sqlServiceWith lookup check faults).CreateBooking clock db userID fieldID startTime
      durationHours).result = .ok b) :
    b.Status = .PENDING ∧
    b.TotalPrice = field.PricePerHour * durationHours ∧
    b.PaymentID = some (db.paymentSeq + 1) ∧
    ((sqlServiceWith lookup check faults).CreateBooking clock db userID fieldID startTime
        durationHours).store.payments
      = db.payments ++
        [{ ID := db.paymentSeq + 1, BookingID := b.ID,
           Amount := field.PricePerHour * durationHours, PaymentGateway := "Midtrans",
           TransactionID := transactionID b.ID clock.transaction, Status := .PENDING,
           CreatedAt := clock.paymentCreatedAt, UpdatedAt := clock.paymentUpdatedAt }] ∧
    paymentsCreated ((sqlServiceWith lookup check faults).CreateBooking clock db userID fieldID
        startTime durationHours).calls
      = [{ ID := 0, BookingID := b.ID,
           Amount := field.PricePerHour * durationHours, PaymentGateway := "Midtrans",
           TransactionID := transactionID b.ID clock.transaction, Status := .PENDING,
           CreatedAt := clock.paymentCreatedAt, UpdatedAt := clock.paymentUpdatedAt }] ∧
    ({ b with PaymentID := none } : Booking) ∈
      ((sqlServiceWith lookup check faults).CreateBooking clock db userID fieldID startTime
        durationHours).store.bookings ∧
    ((sqlServiceWith lookup check faults).CreateBooking clock db userID fieldID startTime
        durationHours).store.bookings.length = db.bookings.length + 1 := by
  obtain ⟨field1, hfield, -, hb, hstore, hcalls⟩ :=
    sqlCreateBooking_ok_store lookup check faults clock db userID fieldID startTime
      durationHours b hok
  rw [hfound] at hfield
  simp only [Except.ok.injEq] at hfield
  subst hfield
  have hprice : field.CalculatePrice durationHours = field.PricePerHour * durationHours :=
    wrapInt64_of_fits _ hlo hhi
  have hid : b.ID = db.bookingSeq + 1 := by rw [hb]
  refine ⟨by rw [hb]; rfl, ?_, by rw [hb], ?_, ?_, ?_, ?_⟩
  · rw [hb]
    exact hprice
  · rw [hstore, hid, ← hprice]
    rfl
  · rw [hcalls, hid, ← hprice]
    rfl
  · rw [hstore]
    simp only [List.map_append, List.map_cons, List.map_nil, List.mem_append,
      List.mem_singleton]
    right
    rw [hb]
    simp [updateBookingRow, bookingToInsert]
  · rw [hstore]
    simp

/-- Witness of C7 as amended: two hours on the sample field, priced 100000, against a store
without bookings give a total price of 200000 and one payment row with that amount. -/
theorem createBooking_success_booking_and_payment_witness :
    (rowLookup emptyStore 1 = .ok sampleField ∧
      -(2 : Int) ^ 63 ≤ sampleField.PricePerHour * 2 ∧
      sampleField.PricePerHour * 2 < (2 : Int) ^ 63 ∧
      ((sqlServiceWith rowLookup countingCheck Faults.none).CreateBooking eightOClock emptyStore
          5 1 (clockTime 10 0) 2).result
        = .ok { ID := 1, UserID := 5, FieldID := 1, StartTime := clockTime 10 0,
                EndTime := clockTime 12 0, TotalPrice := 200000, Status := .PENDING,
                PaymentID := some 1, CreatedAt := clockTime 8 0 }) ∧
    (BookingStatus.PENDING = .PENDING ∧
    (200000 : Int) = sampleField.PricePerHour * 2 ∧
    some (1 : Int) = some (emptyStore.paymentSeq + 1) ∧
    ((sqlServiceWith rowLookup countingCheck Faults.none).CreateBooking eightOClock emptyStore
        5 1 (clockTime 10 0) 2).store.payments
      = emptyStore.payments ++
        [{ ID := emptyStore.paymentSeq + 1, BookingID := 1,
           Amount := sampleField.PricePerHour * 2, PaymentGateway := "Midtrans",
           TransactionID := transactionID 1 eightOClock.transaction, Status := .PENDING,
           CreatedAt := eightOClock.paymentCreatedAt,
           UpdatedAt := eightOClock.paymentUpdatedAt }] ∧
    paymentsCreated ((sqlServiceWith rowLookup countingCheck Faults.none).CreateBooking
        eightOClock emptyStore 5 1 (clockTime 10 0) 2).calls
      = [{ ID := 0, BookingID := 1,
           Amount := sampleField.PricePerHour * 2, PaymentGateway := "Midtrans",
           TransactionID := transactionID 1 eightOClock.transaction, Status := .PENDING,
           CreatedAt := eightOClock.paymentCreatedAt,
           UpdatedAt := eightOClock.paymentUpdatedAt }] ∧
    ({ ID := 1, UserID := 5, FieldID := 1, StartTime := clockTime 10 0,
       EndTime := clockTime 12 0, TotalPrice := 200000, Status := .PENDING,
       PaymentID := none, CreatedAt := clockTime 8 0 } : Booking) ∈
      ((sqlServiceWith rowLookup countingCheck Faults.none).CreateBooking eightOClock emptyStore
        5 1 (clockTime 10 0) 2).store.bookings ∧
    ((sqlServiceWith rowLookup countingCheck Faults.none).CreateBooking eightOClock emptyStore
        5 1 (clockTime 10 0) 2).store.bookings.length = emptyStore.bookings.length + 1) :=
  ⟨⟨rfl, by decide, by decide, rfl⟩,
   createBooking_success_booking_and_payment rowLookup countingCheck Faults.none eightOClock
     emptyStore 5 1 (clockTime 10 0) 2 sampleField _ rfl (by decide) (by decide) rfl⟩

/-! ## Schedules and cancellation (`internal/domain`) -/

/-- The three parts of `Clock` add up to the second of the day. -/
theorem clock_seconds (t : Time) :
    (Time.Clock t).1 * 3600 + (Time.Clock t).2.1 * 60 + (Time.Clock t).2.2 = secondOfDay t := by
  simp only [Time.Clock, secondOfDay]
  omega

/-- Weekdays of known dates: 1 January 1970 is a Thursday, 4 January 1970 a Sunday and
10 January 1970 a Saturday. -/
theorem weekday_known_dates :
    Time.Weekday 0 = 4 ∧ Time.Weekday (3 * (24 * Hour)) = 0 ∧
      Time.Weekday (9 * (24 * Hour) + 23 * Hour) = 6 := by
  decide

/-- C14. `Schedule.IsOpen s t` is true exactly when the weekday of `t` (an integer from 0,
Sunday, to 6, Saturday) equals the schedule's `DayOfWeek` and the time of day of `t`, in whole
seconds, lies between the times of day of `OpenTime` and `CloseTime`, both bounds included. -/
theorem schedule_isOpen_iff (s : Schedule) (t : Time) :
    (s.IsOpen t = true ↔
      Time.Weekday t = s.DayOfWeek ∧ secondOfDay s.OpenTime ≤ secondOfDay t ∧
        secondOfDay t ≤ secondOfDay s.CloseTime) ∧
    0 ≤ Time.Weekday t ∧ Time.Weekday t ≤ 6 := by
  refine ⟨?_, ?_, ?_⟩
  · unfold Schedule.IsOpen
    simp only [ne_eq, ite_not]
    split_ifs with hday
    · simp only [Bool.and_eq_true, decide_eq_true_eq, ge_iff_le]
      rw [clock_seconds t, clock_seconds s.OpenTime, clock_seconds s.CloseTime]
      exact ⟨fun h => ⟨hday, h⟩, fun h => h.2⟩
    · simp [hday]
  · unfold Time.Weekday
    omega
  · unfold Time.Weekday
    omega

/-- Both bounds of `IsOpen` are included and the second after closing is not: a Sunday
schedule 08:00-17:00, read at 08:00:00, 17:00:00, 17:00:01 and 07:59:59 of Sunday
4 January 1970, and at 12:00 of the Monday after. -/
theorem schedule_isOpen_bounds :
    let s : Schedule :=
      { ID := 1, FieldID := 1, DayOfWeek := 0, OpenTime := 8 * Hour, CloseTime := 17 * Hour }
    s.IsOpen (3 * (24 * Hour) + 8 * Hour) = true ∧
    s.IsOpen (3 * (24 * Hour) + 17 * Hour) = true ∧
    s.IsOpen (3 * (24 * Hour) + 17 * Hour + Second) = false ∧
    s.IsOpen (3 * (24 * Hour) + 8 * Hour - Second) = false ∧
    s.IsOpen (4 * (24 * Hour) + 12 * Hour) = false := by
  decide

/-- C15. `CanBeCancelled` is true exactly when the status is PENDING or CONFIRMED and the start
is more than two hours after `now`. Exactly two hours and 90 minutes before the start it is
false for every booking; three hours before the start it is true exactly for the bookings in
status PENDING or CONFIRMED. -/
theorem canBeCancelled_iff (b : Booking) (now : Time) :
    (b.CanBeCancelled now = true ↔
      (b.Status = .PENDING ∨ b.Status = .CONFIRMED) ∧ b.StartTime - now > 2 * Hour) ∧
    b.CanBeCancelled (b.StartTime - 2 * Hour) = false ∧
    b.CanBeCancelled (b.StartTime - 90 * Minute) = false ∧
    (b.CanBeCancelled (b.StartTime - 3 * Hour) = true ↔
      (b.Status = .PENDING ∨ b.Status = .CONFIRMED)) := by
  have key : ∀ now : Time, (b.CanBeCancelled now = true ↔
      (b.Status = .PENDING ∨ b.Status = .CONFIRMED) ∧ b.StartTime - now > 2 * Hour) := by
    intro now
    unfold Booking.CanBeCancelled Time.Sub maxDuration minDuration
    unfold Time at *
    simp only [Hour]
    cases b.Status <;> simp <;> split_ifs <;> omega
  refine ⟨key now, ?_, ?_, ?_⟩
  · rw [Bool.eq_false_iff, Ne, key]
    unfold Time at *
    simp only [Hour]
    omega
  · rw [Bool.eq_false_iff, Ne, key]
    unfold Time at *
    simp only [Hour, Minute]
    omega
  · rw [key]
    unfold Time at *
    simp only [Hour]
    constructor
    · exact fun h => h.1
    · exact fun h => ⟨h, by omega⟩

/-! ## Partial writes of `CreateBooking` -/

/-- C11 as stated fails. Field 1 exists and is free, the booking insert succeeds and the
payment insert fails: `CreateBooking` returns the payment error, and the store it leaves holds
the new PENDING booking and no payment. -/
theorem createBooking_keeps_booking_when_payment_fails :
    ((sqlServiceWith rowLookup countingCheck paymentInsertFails).CreateBooking eightOClock
        emptyStore 5 1 (clockTime 10 0) 1).result
      = .error (.wrap "error creating payment" (.wrap "error creating payment" driverError)) ∧
    ((sqlServiceWith rowLookup countingCheck paymentInsertFails).CreateBooking eightOClock
        emptyStore 5 1 (clockTime 10 0) 1).store.bookings
      = [{ ID := 1, UserID := 5, FieldID := 1, StartTime := clockTime 10 0,
           EndTime := clockTime 11 0, TotalPrice := 100000, Status := .PENDING,
           PaymentID := none, CreatedAt := clockTime 8 0 }] ∧
    ((sqlServiceWith rowLookup countingCheck paymentInsertFails).CreateBooking eightOClock
        emptyStore 5 1 (clockTime 10 0) 1).store.payments = [] ∧
    emptyStore.bookings = [] := by
  refine ⟨rfl, rfl, rfl, rfl⟩

/-- C11, as the code has it. `CreateBooking` does not roll back: when the validations pass, the
field is found, the window is reported free, the booking `INSERT` succeeds and the payment
`INSERT` fails, the call fails with the payment error, makes no repository call after the
payment insert, and leaves the database with the new PENDING booking row added and the
payments as they were. -/
theorem createBooking_no_rollback (lookup : DB → Int → Except Err Field)
    (check : DB → Int → Time → Time → Except Err Bool) (faults : Faults) (clock : Clock)
    (db : DB) (userID fieldID : Int) (startTime : Time) (durationHours : Int) (field : Field)
    (huser : 0 < userID) (hfield : 0 < fieldID) (hdur : 0 < durationHours)
    (hfuture : clock.validation ≤ startTime)
    (hfound : lookup db fieldID = .ok field)
    (hfree : check db fieldID startTime (startTime + wrapInt64 (durationHours * Hour))
      = .ok true)
    (hinsert : faults.bookingCreate = false) (hpayment : faults.paymentCreate = true) :
    ((sqlServiceWith lookup check faults).CreateBooking clock db userID fieldID startTime
        durationHours).result
      = .error (.wrap "error creating payment" (.wrap "error creating payment" driverError)) ∧
    ((sqlServiceWith lookup check faults).CreateBooking clock db userID fieldID startTime
        durationHours).store
      = { db with
          bookings := db.bookings ++
            [{ bookingToInsert clock field userID fieldID startTime durationHours with
               ID := db.bookingSeq + 1 }],
          bookingSeq := db.bookingSeq + 1 } ∧
    ((sqlServiceWith lookup check faults).CreateBooking clock db userID fieldID startTime
        durationHours).calls
      = [.fieldFindByID fieldID,
         .checkAvailability fieldID startTime (startTime + wrapInt64 (durationHours * Hour)),
         .bookingCreate (bookingToInsert clock field userID fieldID startTime durationHours),
         .paymentCreate (paymentToInsert clock (db.bookingSeq + 1)
           (field.CalculatePrice durationHours))] := by
  have h1 : ¬ userID ≤ 0 := by omega
  have h2 : ¬ fieldID ≤ 0 := by omega
  have h3 : ¬ durationHours ≤ 0 := by omega
  have h4 : ¬ startTime < clock.validation := Int.not_lt.mpr hfuture
  simp [bookingService.CreateBooking, sqlServiceWith, sqlBookingRepository, sqlFieldRepository,
    bookingRepository.Create, paymentRepository.Create, h1, h2, h3, h4, hfound, hfree, hinsert,
    hpayment, bookingToInsert, paymentToInsert]

/-- Witness of C11 as amended: the sample field, free, with the payment insert failing. -/
theorem createBooking_no_rollback_witness :
    ((0 : Int) < 5 ∧ (0 : Int) < 1 ∧ (0 : Int) < 1 ∧ eightOClock.validation ≤ clockTime 10 0 ∧
      rowLookup emptyStore 1 = .ok sampleField ∧
      countingCheck emptyStore 1 (clockTime 10 0) (clockTime 10 0 + wrapInt64 (1 * Hour))
        = .ok true ∧
      paymentInsertFails.bookingCreate = false ∧ paymentInsertFails.paymentCreate = true) ∧
    (((sqlServiceWith rowLookup countingCheck paymentInsertFails).CreateBooking eightOClock
        emptyStore 5 1 (clockTime 10 0) 1).result
      = .error (.wrap "error creating payment" (.wrap "error creating payment" driverError)) ∧
    ((sqlServiceWith rowLookup countingCheck paymentInsertFails).CreateBooking eightOClock
        emptyStore 5 1 (clockTime 10 0) 1).store
      = { emptyStore with
          bookings := emptyStore.bookings ++
            [{ bookingToInsert eightOClock sampleField 5 1 (clockTime 10 0) 1 with
               ID := emptyStore.bookingSeq + 1 }],
          bookingSeq := emptyStore.bookingSeq + 1 } ∧
    ((sqlServiceWith rowLookup countingCheck paymentInsertFails).CreateBooking eightOClock
        emptyStore 5 1 (clockTime 10 0) 1).calls
      = [.fieldFindByID 1,
         .checkAvailability 1 (clockTime 10 0) (clockTime 10 0 + wrapInt64 (1 * Hour)),
         .bookingCreate (bookingToInsert eightOClock sampleField 5 1 (clockTime 10 0) 1),
         .paymentCreate (paymentToInsert eightOClock (emptyStore.bookingSeq + 1)
           (sampleField.CalculatePrice 1))]) :=
  ⟨⟨by decide, by decide, by decide, by decide, rfl, rfl, rfl, rfl⟩,
   createBooking_no_rollback rowLookup countingCheck paymentInsertFails eightOClock emptyStore
     5 1 (clockTime 10 0) 1 sampleField (by decide) (by decide) (by decide) (by decide)
     rfl rfl rfl rfl⟩

/-! ## The field service -/

/-- C13. For a positive field id whose schedule list is read and has no entry for the weekday
of `date`, `FindAvailableSlots` returns the empty sequence and no error, after that one read
and without changing the store; this holds for every implementation of the repositories. -/
theorem findAvailableSlots_closed_day {σ : Type} (u : fieldService σ) (store : σ)
    (fieldID : Int) (date : Time) (schedules : List Schedule)
    (hid : 0 < fieldID)
    (hread : u.fieldRepo.FindScheduleByFieldID store fieldID = .ok schedules)
    (hclosed : ∀ s ∈ schedules, s.DayOfWeek ≠ Time.Weekday date) :
    (u.FindAvailableSlots store fieldID date).result = .ok [] ∧
    (u.FindAvailableSlots store fieldID date).store = store ∧
    (u.FindAvailableSlots store fieldID date).calls = [.scheduleFindByFieldID fieldID] := by
  have h1 : ¬ fieldID ≤ 0 := by omega
  have hnone : schedules.find? (fun schedule => schedule.DayOfWeek == Time.Weekday date)
      = none := by
    rw [List.find?_eq_none]
    intro s hs
    simpa using hclosed s hs
  simp [fieldService.FindAvailableSlots, h1, hread, hnone]

/-- Witness of C13: the SQL repositories, a field open on Sunday only, asked for Monday
5 January 1970. -/
theorem findAvailableSlots_closed_day_witness :
    ((0 : Int) < 1 ∧
      (sqlFieldService Faults.none).fieldRepo.FindScheduleByFieldID sundayStore 1
        = .ok [sampleSchedule 1 0 8 11] ∧
      ∀ s ∈ [sampleSchedule 1 0 8 11],
        s.DayOfWeek ≠ Time.Weekday (sundayMidnight + 24 * Hour)) ∧
    (((sqlFieldService Faults.none).FindAvailableSlots sundayStore 1
        (sundayMidnight + 24 * Hour)).result = .ok [] ∧
    ((sqlFieldService Faults.none).FindAvailableSlots sundayStore 1
        (sundayMidnight + 24 * Hour)).store = sundayStore ∧
    ((sqlFieldService Faults.none).FindAvailableSlots sundayStore 1
        (sundayMidnight + 24 * Hour)).calls = [.scheduleFindByFieldID 1]) :=
  ⟨⟨by decide, rfl, by decide⟩,
   findAvailableSlots_closed_day (sqlFieldService Faults.none) sundayStore 1
     (sundayMidnight + 24 * Hour) [sampleSchedule 1 0 8 11] (by decide) rfl (by decide)⟩

/-- When the lookup returns a field owned by someone else, `UpdateField`, `DeleteField` and
`SetupSchedules` each fail with the unauthorized error after that one read, whatever the
repositories, and leave the store as it was. -/
theorem non_owner_is_refused {σ : Type} (u : fieldService σ) (store : σ)
    (fieldID ownerID : Int) (field : Field) (name address description imageURL : String)
    (pricePerHour : Int) (schedules : List ScheduleInput)
    (hid : 0 < fieldID) (hfound : u.fieldRepo.FindByID store fieldID = .ok field)
    (hother : field.OwnerID ≠ ownerID) :
    u.UpdateField store fieldID ownerID name address description imageURL pricePerHour
      = ⟨.error (.msg "unauthorized: you are not the owner of this field"), store,
          [.fieldFindByID fieldID]⟩ ∧
    u.DeleteField store fieldID ownerID
      = ⟨.error (.msg "unauthorized: you are not the owner of this field"), store,
          [.fieldFindByID fieldID]⟩ ∧
    u.SetupSchedules store fieldID ownerID schedules
      = ⟨.error (.msg "unauthorized: you are not the owner of this field"), store,
          [.fieldFindByID fieldID]⟩ := by
  have h1 : ¬ fieldID ≤ 0 := by omega
  have h2 : field.IsOwnedBy ownerID = false := by
    simp [Field.IsOwnedBy, hother]
  refine ⟨?_, ?_, ?_⟩
  · simp [fieldService.UpdateField, h1, hfound, h2]
  · simp [fieldService.DeleteField, h1, hfound, h2]
  · simp [fieldService.SetupSchedules, h1, hfound, h2]

/-- C18 (the code departs from the claim). Field 1 exists and is owned by user 9; user 5 calls
`UpdateField`, `DeleteField` and `SetupSchedules` on it through the SQL repositories. Each
call fails and changes nothing, but with "field not found", not with the unauthorized error:
the field lookup fails on its column count before the owner is compared. -/
theorem non_owner_gets_field_not_found :
    bookedSundayStore.fields = [sampleField] ∧ sampleField.OwnerID = 9 ∧
    (sqlFieldService Faults.none).UpdateField bookedSundayStore 1 5 "Lapangan B" "Jl. Baru 2"
        "" "" 120000
      = ⟨.error (.msg "field not found"), bookedSundayStore, [.fieldFindByID 1]⟩ ∧
    (sqlFieldService Faults.none).DeleteField bookedSundayStore 1 5
      = ⟨.error (.msg "field not found"), bookedSundayStore, [.fieldFindByID 1]⟩ ∧
    (sqlFieldService Faults.none).SetupSchedules bookedSundayStore 1 5
        [{ DayOfWeek := 1, OpenTime := "08:00", CloseTime := "17:00" }]
      = ⟨.error (.msg "field not found"), bookedSundayStore, [.fieldFindByID 1]⟩ ∧
    fieldRepository.FindByID Faults.none bookedSundayStore 1
      = .error (.wrap "error finding field"
          (.msg "sql: expected 7 destination arguments in Scan, not 8")) := by
  refine ⟨rfl, rfl, rfl, rfl, rfl, rfl⟩

/-- C16 (the code departs from the claim). Field 1 has the stored schedule Sunday 08:00-11:00
and its owner, user 9, sends a valid Monday entry followed by an entry for day 7. With a
lookup that returns the field, `SetupSchedules` fails on the second entry, after it has deleted
the stored schedule and inserted the Monday entry. (With the lookup of the SQL repository the
call stops earlier, with "field not found".) -/
theorem setupSchedules_invalid_entry_after_delete :
    bookedSundayStore.schedules = [sampleSchedule 1 0 8 11] ∧
    ((sqlFieldServiceWith rowLookup countingCheck Faults.none).SetupSchedules bookedSundayStore
        1 9 [{ DayOfWeek := 1, OpenTime := "08:00", CloseTime := "17:00" },
             { DayOfWeek := 7, OpenTime := "08:00", CloseTime := "17:00" }]).result
      = .error (.msg "invalid day of week: 7") ∧
    ((sqlFieldServiceWith rowLookup countingCheck Faults.none).SetupSchedules bookedSundayStore
        1 9 [{ DayOfWeek := 1, OpenTime := "08:00", CloseTime := "17:00" },
             { DayOfWeek := 7, OpenTime := "08:00", CloseTime := "17:00" }]).store.schedules
      = [sampleSchedule 2 1 8 17] ∧
    ((sqlFieldServiceWith rowLookup countingCheck Faults.none).SetupSchedules bookedSundayStore
        1 9 [{ DayOfWeek := 7, OpenTime := "08:00", CloseTime := "17:00" }]).store.schedules
      = [] ∧
    ((sqlFieldService Faults.none).SetupSchedules bookedSundayStore
        1 9 [{ DayOfWeek := 7, OpenTime := "08:00", CloseTime := "17:00" }]).result
      = .error (.msg "field not found") := by
  refine ⟨rfl, rfl, rfl, rfl, rfl⟩

/-- C19 as stated fails. Field 1 has a CONFIRMED booking and its owner, user 9, calls
`DeleteField`. With a lookup that returns the field the call succeeds: the field row is gone
and the booking that references it is still in the store. (With the lookup of the SQL
repository the call fails with "field not found", as it does for every field.) -/
theorem deleteField_removes_field_with_active_booking :
    bookedSundayStore.bookings
      = [sampleBooking 1 1 (clockTime 9 0) (clockTime 10 0) .CONFIRMED] ∧
    ((sqlFieldServiceWith rowLookup countingCheck Faults.none).DeleteField bookedSundayStore
        1 9).result = .ok () ∧
    ((sqlFieldServiceWith rowLookup countingCheck Faults.none).DeleteField bookedSundayStore
        1 9).store.fields = [] ∧
    ((sqlFieldServiceWith rowLookup countingCheck Faults.none).DeleteField bookedSundayStore
        1 9).store.bookings
      = [sampleBooking 1 1 (clockTime 9 0) (clockTime 10 0) .CONFIRMED] ∧
    ((sqlFieldService Faults.none).DeleteField bookedSundayStore 1 9).result
      = .error (.msg "field not found") := by
  refine ⟨rfl, rfl, rfl, rfl, rfl⟩

/-- C19, as the code has it. `DeleteField` does not look at bookings: called by the owner of a
stored field, with a lookup that returns the field and a `DELETE` the driver does not fail, it
succeeds, removes the field row and leaves every other table, the bookings included, as it
was. -/
theorem deleteField_ignores_bookings (lookup : DB → Int → Except Err Field)
    (check : DB → Int → Time → Time → Except Err Bool) (faults : Faults) (db : DB)
    (fieldID ownerID : Int) (field : Field)
    (hid : 0 < fieldID) (hfound : lookup db fieldID = .ok field)
    (howner : field.OwnerID = ownerID) (hdriver : faults.fieldDelete = false)
    (hrow : ∃ row ∈ db.fields, row.ID = fieldID) :
    ((sqlFieldServiceWith lookup check faults).DeleteField db fieldID ownerID).result = .ok () ∧
    ((sqlFieldServiceWith lookup check faults).DeleteField db fieldID ownerID).store
      = { db with fields := db.fields.filter (fun row => row.ID != fieldID) } ∧
    ((sqlFieldServiceWith lookup check faults).DeleteField db fieldID ownerID).calls
      = [.fieldFindByID fieldID, .fieldDelete fieldID] := by
  have h1 : ¬ fieldID ≤ 0 := by omega
  have h2 : field.IsOwnedBy ownerID = true := by
    simp [Field.IsOwnedBy, howner]
  have h3 : db.fields.any (fun row => row.ID == fieldID) = true := by
    rw [List.any_eq_true]
    obtain ⟨row, hmem, hrowid⟩ := hrow
    exact ⟨row, hmem, by simp [hrowid]⟩
  simp [fieldService.DeleteField, sqlFieldServiceWith, sqlFieldRepository,
    fieldRepository.Delete, h1, hfound, h2, hdriver, h3]

/-- Witness of C19 as amended: the owner deletes field 1, which has a CONFIRMED booking. -/
theorem deleteField_ignores_bookings_witness :
    ((0 : Int) < 1 ∧ rowLookup bookedSundayStore 1 = .ok sampleField ∧
      sampleField.OwnerID = 9 ∧ Faults.none.fieldDelete = false ∧
      ∃ row ∈ bookedSundayStore.fields, row.ID = 1) ∧
    (((sqlFieldServiceWith rowLookup countingCheck Faults.none).DeleteField bookedSundayStore
        1 9).result = .ok () ∧
    ((sqlFieldServiceWith rowLookup countingCheck Faults.none).DeleteField bookedSundayStore
        1 9).store
      = { bookedSundayStore with
          fields := bookedSundayStore.fields.filter (fun row => row.ID != 1) } ∧
    ((sqlFieldServiceWith rowLookup countingCheck Faults.none).DeleteField bookedSundayStore
        1 9).calls = [.fieldFindByID 1, .fieldDelete 1]) :=
  ⟨⟨by decide, rfl, rfl, rfl, ⟨sampleField, by simp [bookedSundayStore, nineToTenStore], rfl⟩⟩,
   deleteField_ignores_bookings rowLookup countingCheck Faults.none bookedSundayStore 1 9
     sampleField (by decide) rfl rfl rfl
     ⟨sampleField, by simp [bookedSundayStore, nineToTenStore], rfl⟩⟩

/-- Past the end of the day the slot loop makes no round. -/
theorem slotRounds_of_not_lt (cur endOfDay : Time) (h : ¬ cur < endOfDay) :
    slotRounds cur endOfDay = 0 := by
  unfold slotRounds
  unfold Time at *
  simp only [Hour]
  omega

/-- Before the end of the day the slot loop makes one round and goes on an hour later. -/
theorem slotRounds_of_lt (cur endOfDay : Time) (h : cur < endOfDay) :
    slotRounds cur endOfDay = slotRounds (cur + 1 * Hour) endOfDay + 1 := by
  unfold slotRounds
  unfold Time at *
  simp only [Hour]
  omega

/-- With an availability check that always answers, the slot loop given enough fuel returns
the slots it had, followed by one slot per hour begun before the end of the day, and leaves
the store as it was. -/
theorem slotLoop_answers {σ : Type} (u : fieldService σ) (store : σ) (fieldID : Int)
    (endOfDay : Time) (avail : Time → Time → Bool)
    (hcheck : ∀ s e, u.bookingRepo.CheckAvailability store fieldID s e = .ok (avail s e)) :
    ∀ (fuel : Nat) (cur : Time) (slots : List TimeSlot) (calls : List Call),
      slotRounds cur endOfDay ≤ fuel →
      (u.slotLoop store fieldID endOfDay fuel cur slots calls).result
        = .ok (slots ++ (List.range (slotRounds cur endOfDay)).map (slotAt avail cur)) ∧
      (u.slotLoop store fieldID endOfDay fuel cur slots calls).store = store := by
  intro fuel
  induction fuel with
  | zero =>
    intro cur slots calls hfuel
    have hzero : slotRounds cur endOfDay = 0 := by omega
    have hnot : ¬ cur < endOfDay := by
      intro hlt
      rw [slotRounds_of_lt cur endOfDay hlt] at hzero
      omega
    simp [fieldService.slotLoop, hnot, hzero]
  | succ fuel ih =>
    intro cur slots calls hfuel
    by_cases hlt : cur < endOfDay
    · have hrounds := slotRounds_of_lt cur endOfDay hlt
      have hnext : slotRounds (cur + 1 * Hour) endOfDay ≤ fuel := by omega
      obtain ⟨hres, hstore⟩ := ih (cur + 1 * Hour)
        (slots ++ [{ StartTime := cur, EndTime := cur + 1 * Hour,
                     Available := avail cur (cur + 1 * Hour) }])
        (calls ++ [Call.checkAvailability fieldID cur (cur + 1 * Hour)]) hnext
      simp only [fieldService.slotLoop, hlt, if_true, hcheck]
      refine ⟨?_, hstore⟩
      rw [hres, hrounds, List.range_succ_eq_map, List.map_cons, List.map_map]
      simp only [List.append_assoc, List.singleton_append]
      have hhead : slotAt avail cur 0
          = { StartTime := cur, EndTime := cur + 1 * Hour,
              Available := avail cur (cur + 1 * Hour) } := by
        simp [slotAt]
      have htail : List.map (slotAt avail (cur + 1 * Hour))
            (List.range (slotRounds (cur + 1 * Hour) endOfDay))
          = List.map (slotAt avail cur ∘ Nat.succ)
            (List.range (slotRounds (cur + 1 * Hour) endOfDay)) := by
        apply List.map_congr_left
        intro i _
        have e1 : cur + 1 * Hour + (i : Int) * Hour = cur + ((i : Int) + 1) * Hour := by ring
        have e2 : cur + 1 * Hour + ((i : Int) + 1) * Hour
            = cur + ((i : Int) + 1 + 1) * Hour := by ring
        simp only [slotAt, Function.comp, Nat.succ_eq_add_one, Nat.cast_add, Nat.cast_one]
        rw [e1, e2]
      rw [htail, hhead]
    · have hzero := slotRounds_of_not_lt cur endOfDay hlt
      simp [fieldService.slotLoop, hlt, hzero]

/-- The fuel `FindAvailableSlots` gives its slot loop is enough: whatever the availability
check answers, the loop started with at least `slotRounds` rounds of fuel never ends in
"slot loop out of fuel". -/
theorem slotLoop_fuel_suffices {σ : Type} (u : fieldService σ) (store : σ) (fieldID : Int)
    (endOfDay : Time) :
    ∀ (fuel : Nat) (cur : Time) (slots : List TimeSlot) (calls : List Call),
      slotRounds cur endOfDay ≤ fuel →
      (u.slotLoop store fieldID endOfDay fuel cur slots calls).result
        ≠ .error (.msg "slot loop out of fuel") := by
  intro fuel
  induction fuel with
  | zero =>
    intro cur slots calls hfuel
    have hnot : ¬ cur < endOfDay := by
      intro hlt
      rw [slotRounds_of_lt cur endOfDay hlt] at hfuel
      omega
    simp [fieldService.slotLoop, hnot]
  | succ fuel ih =>
    intro cur slots calls hfuel
    by_cases hlt : cur < endOfDay
    · have hrounds := slotRounds_of_lt cur endOfDay hlt
      have hnext : slotRounds (cur + 1 * Hour) endOfDay ≤ fuel := by omega
      simp only [fieldService.slotLoop, hlt, if_true]
      split
      · simp
      · exact ih _ _ _ hnext
    · simp [fieldService.slotLoop, hlt]

/-- The number of rounds is the length of the open window in hours, rounded up: the rounds
but the last fit strictly inside the window, and all of them cover it. -/
theorem slotRounds_is_ceiling (start endOfDay : Time) (h : start < endOfDay) :
    ((slotRounds start endOfDay : Int) - 1) * Hour < endOfDay - start ∧
      endOfDay - start ≤ (slotRounds start endOfDay : Int) * Hour := by
  unfold slotRounds
  unfold Time at *
  simp only [Hour]
  omega

/-- With a schedule entry for the weekday of `date` and an availability check that always
answers, `FindAvailableSlots` returns one slot per hour begun between the opening and the
closing time of that day, each with the answer of the check for its window. -/
theorem findAvailableSlots_answers {σ : Type} (u : fieldService σ) (store : σ) (fieldID : Int)
    (date : Time) (schedules : List Schedule) (schedule : Schedule)
    (avail : Time → Time → Bool)
    (hid : 0 < fieldID)
    (hread : u.fieldRepo.FindScheduleByFieldID store fieldID = .ok schedules)
    (hday : schedules.find? (fun s => s.DayOfWeek == Time.Weekday date) = some schedule)
    (hcheck : ∀ s e, u.bookingRepo.CheckAvailability store fieldID s e = .ok (avail s e)) :
    (u.FindAvailableSlots store fieldID date).result
      = .ok ((List.range
          (slotRounds
            (Time.Date date (Time.Clock schedule.OpenTime).1 (Time.Clock schedule.OpenTime).2.1)
            (Time.Date date (Time.Clock schedule.CloseTime).1
              (Time.Clock schedule.CloseTime).2.1))).map
          (slotAt avail
            (Time.Date date (Time.Clock schedule.OpenTime).1
              (Time.Clock schedule.OpenTime).2.1))) ∧
    (u.FindAvailableSlots store fieldID date).store = store := by
  have h1 : ¬ fieldID ≤ 0 := by omega
  have hloop := slotLoop_answers u store fieldID
    (Time.Date date (Time.Clock schedule.CloseTime).1 (Time.Clock schedule.CloseTime).2.1)
    avail hcheck
    (slotRounds
      (Time.Date date (Time.Clock schedule.OpenTime).1 (Time.Clock schedule.OpenTime).2.1)
      (Time.Date date (Time.Clock schedule.CloseTime).1 (Time.Clock schedule.CloseTime).2.1))
    (Time.Date date (Time.Clock schedule.OpenTime).1 (Time.Clock schedule.OpenTime).2.1)
    [] [.scheduleFindByFieldID fieldID] (le_refl _)
  simp only [List.nil_append] at hloop
  simp only [fieldService.FindAvailableSlots, h1, if_false, hread, hday]
  exact hloop

/-- C12 (the code departs from the claim). Field 1 is open on Sunday 08:00-11:00 and has no
booking. Asked for Sunday 4 January 1970, `FindAvailableSlots` over the SQL repositories
returns no slot but the error of its first availability check, whose query is malformed.
With a check that answers, it returns the three slots 08:00-09:00, 09:00-10:00 and
10:00-11:00, all available. -/
theorem findAvailableSlots_fails_on_first_check :
    sundayStore.schedules = [sampleSchedule 1 0 8 11] ∧ sundayStore.bookings = [] ∧
    ((sqlFieldService Faults.none).FindAvailableSlots sundayStore 1
        (sundayMidnight + 5 * Hour)).result
      = .error (.wrap "error checking availability"
          (.wrap "error checking availability" statementError)) ∧
    ((sqlFieldService Faults.none).FindAvailableSlots sundayStore 1
        (sundayMidnight + 5 * Hour)).calls
      = [.scheduleFindByFieldID 1,
         .checkAvailability 1 (sundayMidnight + 8 * Hour) (sundayMidnight + 9 * Hour)] ∧
    ((sqlFieldServiceWith rowLookup countingCheck Faults.none).FindAvailableSlots sundayStore 1
        (sundayMidnight + 5 * Hour)).result
      = .ok [⟨sundayMidnight + 8 * Hour, sundayMidnight + 9 * Hour, true⟩,
             ⟨sundayMidnight + 9 * Hour, sundayMidnight + 10 * Hour, true⟩,
             ⟨sundayMidnight + 10 * Hour, sundayMidnight + 11 * Hour, true⟩] := by
  refine ⟨rfl, rfl, rfl, rfl, rfl⟩

/-- A successful run of the entry loop of `SetupSchedules` over the SQL repository appends one
row per input entry, in order. -/
theorem setupSchedulesLoop_ok (lookup : DB → Int → Except Err Field)
    (check : DB → Int → Time → Time → Except Err Bool) (faults : Faults) (fieldID : Int) :
    ∀ (inputs : List ScheduleInput) (db : DB) (calls : List Call),
      ((sqlFieldServiceWith lookup check faults).setupSchedulesLoop fieldID inputs db
        calls).result = .ok () →
      ∃ rows,
        ((sqlFieldServiceWith lookup check faults).setupSchedulesLoop fieldID inputs db
          calls).store.schedules = db.schedules ++ rows ∧
        List.Forall₂ (storedFrom fieldID) rows inputs := by
  intro inputs
  induction inputs with
  | nil =>
    intro db calls _
    exact ⟨[], by simp [fieldService.setupSchedulesLoop], List.Forall₂.nil⟩
  | cons input rest ih =>
    intro db calls hok
    unfold fieldService.setupSchedulesLoop at hok ⊢
    split_ifs at hok ⊢ with hday
    split at hok
    · simp at hok
    · rename_i openTime hopen
      split at hok
      · simp at hok
      · rename_i closeTime hclose
        split_ifs at hok ⊢ with horder
        have hcreate : (sqlFieldServiceWith lookup check faults).fieldRepo.CreateSchedule
            = fieldRepository.CreateSchedule faults := rfl
        rw [hcreate] at hok ⊢
        by_cases hfault : faults.scheduleCreate = true
        · simp [fieldRepository.CreateSchedule, hfault] at hok
        · simp only [fieldRepository.CreateSchedule, hfault, Bool.false_eq_true, if_false]
            at hok ⊢
          obtain ⟨rows, hrows, hall⟩ := ih _ _ hok
          refine ⟨{ ID := db.scheduleSeq + 1, FieldID := fieldID, DayOfWeek := input.DayOfWeek,
                    OpenTime := openTime, CloseTime := closeTime } :: rows, ?_,
            List.Forall₂.cons ?_ hall⟩
          · rw [hrows]
            simp
          · unfold Time at *
            refine ⟨rfl, rfl, ?_, ?_, hopen, hclose, ?_⟩
            · show 0 ≤ input.DayOfWeek
              omega
            · show input.DayOfWeek ≤ 6
              omega
            · show openTime < closeTime
              omega

/-- Rows made from input entries for a field all belong to that field. -/
theorem storedFrom_fieldID (fieldID : Int) (rows : List Schedule) (inputs : List ScheduleInput)
    (hall : List.Forall₂ (storedFrom fieldID) rows inputs) :
    ∀ row ∈ rows, row.FieldID = fieldID := by
  induction hall with
  | nil => intro row hrow; simp at hrow
  | cons h _ ih =>
    intro row hrow
    rcases List.mem_cons.mp hrow with rfl | hmem
    · exact h.1
    · exact ih row hmem

/-- C17, as the code has it. After every successful `SetupSchedules` call on a field (with any
field lookup, over the schedule statements of the SQL repository), the stored schedules of the
field are exactly one row per entry of the input list, in input order, so a day listed twice
is stored twice; every one of these rows has its `DayOfWeek` in 0..6 and its `CloseTime`
strictly after its `OpenTime`, and the schedules of other fields are untouched. -/
theorem setupSchedules_stores_one_row_per_entry (lookup : DB → Int → Except Err Field)
    (check : DB → Int → Time → Time → Except Err Bool) (faults : Faults) (db : DB)
    (fieldID ownerID : Int) (inputs : List ScheduleInput)
    (hok : ((sqlFieldServiceWith lookup check faults).SetupSchedules db fieldID ownerID
      inputs).result = .ok ()) :
    ∃ rows,
      ((sqlFieldServiceWith lookup check faults).SetupSchedules db fieldID ownerID
        inputs).store.schedules
        = db.schedules.filter (fun row => row.FieldID != fieldID) ++ rows ∧
      ((sqlFieldServiceWith lookup check faults).SetupSchedules db fieldID ownerID
        inputs).store.schedules.filter (fun row => row.FieldID == fieldID) = rows ∧
      List.Forall₂ (storedFrom fieldID) rows inputs := by
  have hmain : ∃ rows,
      ((sqlFieldServiceWith lookup check faults).SetupSchedules db fieldID ownerID
        inputs).store.schedules
        = db.schedules.filter (fun row => row.FieldID != fieldID) ++ rows ∧
      List.Forall₂ (storedFrom fieldID) rows inputs := by
    unfold fieldService.SetupSchedules at hok ⊢
    by_cases hid : fieldID ≤ 0
    · simp [hid] at hok
    · simp only [hid, if_false] at hok ⊢
      cases hfind : (sqlFieldServiceWith lookup check faults).fieldRepo.FindByID db fieldID with
      | error e => simp [hfind] at hok
      | ok field =>
        simp only [hfind] at hok ⊢
        by_cases howner : (!field.IsOwnedBy ownerID) = true
        · simp [howner] at hok
        · simp only [howner, if_false] at hok ⊢
          by_cases hlen : inputs.length = 0
          · simp [hlen] at hok
          · simp only [hlen, if_false] at hok ⊢
            have hdelete :
                (sqlFieldServiceWith lookup check faults).fieldRepo.DeleteScheduleByFieldID
                  = fieldRepository.DeleteScheduleByFieldID faults := rfl
            rw [hdelete] at hok ⊢
            by_cases hfault : faults.scheduleDelete = true
            · simp [fieldRepository.DeleteScheduleByFieldID, hfault] at hok
            · simp only [fieldRepository.DeleteScheduleByFieldID, hfault, Bool.false_eq_true,
                if_false] at hok ⊢
              exact setupSchedulesLoop_ok lookup check faults fieldID inputs _ _ hok
  obtain ⟨rows, hrows, hall⟩ := hmain
  refine ⟨rows, hrows, ?_, hall⟩
  rw [hrows, List.filter_append]
  have hleft : (db.schedules.filter (fun row => row.FieldID != fieldID)).filter
      (fun row => row.FieldID == fieldID) = [] := by
    rw [List.filter_filter, List.filter_eq_nil_iff]
    intro row _
    simp
  have hright : rows.filter (fun row => row.FieldID == fieldID) = rows := by
    rw [List.filter_eq_self]
    intro row hrow
    simp [storedFrom_fieldID fieldID rows inputs hall row hrow]
  rw [hleft, hright, List.nil_append]

/-- Witness of C17 as amended: the owner of field 1 sends two Monday entries. -/
theorem setupSchedules_stores_one_row_per_entry_witness :
    ((sqlFieldServiceWith rowLookup countingCheck Faults.none).SetupSchedules bookedSundayStore
        1 9 [{ DayOfWeek := 1, OpenTime := "08:00", CloseTime := "17:00" },
             { DayOfWeek := 1, OpenTime := "09:00", CloseTime := "12:00" }]).result = .ok () ∧
    ∃ rows,
      ((sqlFieldServiceWith rowLookup countingCheck Faults.none).SetupSchedules
        bookedSundayStore 1 9
          [{ DayOfWeek := 1, OpenTime := "08:00", CloseTime := "17:00" },
           { DayOfWeek := 1, OpenTime := "09:00", CloseTime := "12:00" }]).store.schedules
        = bookedSundayStore.schedules.filter (fun row => row.FieldID != 1) ++ rows ∧
      ((sqlFieldServiceWith rowLookup countingCheck Faults.none).SetupSchedules
        bookedSundayStore 1 9
          [{ DayOfWeek := 1, OpenTime := "08:00", CloseTime := "17:00" },
           { DayOfWeek := 1, OpenTime := "09:00", CloseTime := "12:00" }]).store.schedules.filter
          (fun row => row.FieldID == 1) = rows ∧
      List.Forall₂ (storedFrom 1) rows
        [{ DayOfWeek := 1, OpenTime := "08:00", CloseTime := "17:00" },
         { DayOfWeek := 1, OpenTime := "09:00", CloseTime := "12:00" }] :=
  ⟨rfl, setupSchedules_stores_one_row_per_entry rowLookup countingCheck Faults.none
    bookedSundayStore 1 9 _ rfl⟩

/-- C17 as stated fails. The owner of field 1 sends two entries for Monday: `SetupSchedules`
succeeds and the field's stored schedule set holds two Monday entries. -/
theorem setupSchedules_stores_two_entries_for_one_day :
    ((sqlFieldServiceWith rowLookup countingCheck Faults.none).SetupSchedules bookedSundayStore
        1 9 [{ DayOfWeek := 1, OpenTime := "08:00", CloseTime := "17:00" },
             { DayOfWeek := 1, OpenTime := "09:00", CloseTime := "12:00" }]).result = .ok () ∧
    ((sqlFieldServiceWith rowLookup countingCheck Faults.none).SetupSchedules bookedSundayStore
        1 9 [{ DayOfWeek := 1, OpenTime := "08:00", CloseTime := "17:00" },
             { DayOfWeek := 1, OpenTime := "09:00", CloseTime := "12:00" }]).store.schedules
      = [sampleSchedule 2 1 8 17, sampleSchedule 3 1 9 12] ∧
    (sampleSchedule 2 1 8 17).DayOfWeek = (sampleSchedule 3 1 9 12).DayOfWeek ∧
    (sampleSchedule 2 1 8 17).FieldID = 1 ∧ (sampleSchedule 3 1 9 12).FieldID = 1 := by
  refine ⟨rfl, rfl, rfl, rfl, rfl⟩

/-! ## The duration of a booking in hours -/

/-- Rounding to the nearest integer moves a number by at most one half. -/
theorem roundHalfEven_error (x : ℚ) : |(roundHalfEven x : ℚ) - x| ≤ 1 / 2 := by
  have h1 : (⌊x⌋ : ℚ) ≤ x := Int.floor_le x
  have h2 : x < ⌊x⌋ + 1 := Int.lt_floor_add_one x
  unfold roundHalfEven
  split_ifs with ha hb hc
  · rw [abs_le]; constructor <;> linarith
  · push_cast; rw [abs_le]; constructor <;> linarith
  · rw [abs_le]; constructor <;> linarith
  · push_cast; rw [abs_le]; constructor <;> linarith

/-- A number less than one half away from an integer is rounded to it. -/
theorem roundHalfEven_of_near (x : ℚ) (m : Int) (h : |x - m| < 1 / 2) :
    roundHalfEven x = m := by
  rw [abs_lt] at h
  obtain ⟨hlo, hhi⟩ := h
  have hfloor : ⌊x⌋ = m ∨ ⌊x⌋ = m - 1 := by
    have h1 : m - 1 ≤ ⌊x⌋ := by
      rw [Int.le_floor]; push_cast; linarith
    have h2 : ⌊x⌋ < m + 1 := by
      rw [Int.floor_lt]; push_cast; linarith
    omega
  unfold roundHalfEven
  rcases hfloor with hf | hf
  · have : x - (⌊x⌋ : ℚ) < 1 / 2 := by rw [hf]; linarith
    rw [if_pos this, hf]
  · have hx : (⌊x⌋ : ℚ) = m - 1 := by rw [hf]; push_cast; ring
    have h1 : ¬ x - (⌊x⌋ : ℚ) < 1 / 2 := by rw [hx]; linarith
    have h2 : 1 / 2 < x - (⌊x⌋ : ℚ) := by rw [hx]; linarith
    rw [if_neg h1, if_pos h2, hf]
    ring

/-- An integer is rounded to itself. -/
theorem roundHalfEven_intCast (n : Int) : roundHalfEven (n : ℚ) = n := by
  apply roundHalfEven_of_near
  simp

/-- The binary exponent of a nonzero number brackets it. -/
theorem binade_spec (q : ℚ) (hq : q ≠ 0) :
    (2 : ℚ) ^ binade q ≤ |q| ∧ |q| < (2 : ℚ) ^ (binade q + 1) := by
  have hpos : 0 < |q| := abs_pos.mpr hq
  constructor
  · exact_mod_cast Int.zpow_log_le_self (b := 2) (by norm_num) hpos
  · exact_mod_cast Int.lt_zpow_succ_log_self (b := 2) (by norm_num) |q|

/-- A nonzero number below `2 ^ k` in absolute value has a binary exponent below `k`. -/
theorem binade_lt (q : ℚ) (hq : q ≠ 0) (k : Int) (h : |q| < (2 : ℚ) ^ k) : binade q < k := by
  have hpos : 0 < |q| := abs_pos.mpr hq
  have := (Int.lt_zpow_iff_log_lt (b := 2) (by norm_num) (x := k) hpos).mp (by exact_mod_cast h)
  exact this

/-- A number of absolute value at least `2 ^ k` has a binary exponent at least `k`. -/
theorem le_binade (q : ℚ) (hq : q ≠ 0) (k : Int) (h : (2 : ℚ) ^ k ≤ |q|) : k ≤ binade q := by
  have hpos : 0 < |q| := abs_pos.mpr hq
  have := (Int.zpow_le_iff_le_log (b := 2) (by norm_num) (x := k) hpos).mp (by exact_mod_cast h)
  exact this

/-- Rounding to `float64` a number below `2 ^ k` in absolute value moves it by at most
`2 ^ (k - 54)`. -/
theorem roundFloat64_error (q : ℚ) (k : Int) (h : |q| < (2 : ℚ) ^ k) :
    |roundFloat64 q - q| ≤ (2 : ℚ) ^ (k - 54) := by
  unfold roundFloat64
  split_ifs with hq
  · rw [hq]; simp only [sub_zero, abs_zero]; positivity
  · have hu : (0 : ℚ) < 2 ^ (binade q - 52) := by positivity
    have herr := roundHalfEven_error (q / 2 ^ (binade q - 52))
    have hsplit : (roundHalfEven (q / 2 ^ (binade q - 52)) : ℚ) * 2 ^ (binade q - 52) - q
        = ((roundHalfEven (q / 2 ^ (binade q - 52)) : ℚ) - q / 2 ^ (binade q - 52))
          * 2 ^ (binade q - 52) := by
      field_simp
    rw [hsplit, abs_mul, abs_of_pos hu]
    have hlt := binade_lt q hq k h
    have hpow : (2 : ℚ) ^ (binade q - 52) ≤ 2 ^ (k - 53) :=
      zpow_le_zpow_right₀ (by norm_num) (by omega)
    have hhalf : (2 : ℚ) ^ (k - 54) = 1 / 2 * 2 ^ (k - 53) := by
      rw [show k - 53 = (k - 54) + 1 by ring, zpow_add₀ (by norm_num : (2 : ℚ) ≠ 0)]
      simp
      ring
    rw [hhalf]
    exact mul_le_mul herr hpow hu.le (by norm_num)

/-- An integer below `2 ^ 53` in absolute value is a `float64`: rounding leaves it as it is. -/
theorem roundFloat64_intCast (n : Int) (h : |n| < 2 ^ 53) : roundFloat64 (n : ℚ) = n := by
  unfold roundFloat64
  split_ifs with hq
  · exact hq.symm
  · have hn : n ≠ 0 := by exact_mod_cast hq
    have habs : |(n : ℚ)| < (2 : ℚ) ^ (53 : Int) := by
      have h1 : ((|n| : Int) : ℚ) < ((2 ^ 53 : Int) : ℚ) := by exact_mod_cast h
      rw [Int.cast_abs] at h1
      calc |(n : ℚ)| < ((2 ^ 53 : Int) : ℚ) := h1
        _ = (2 : ℚ) ^ (53 : Int) := by norm_num
    have hhi := binade_lt (n : ℚ) hq 53 habs
    have hlo : 0 ≤ binade (n : ℚ) := by
      apply le_binade _ hq
      have : (1 : Int) ≤ |n| := Int.one_le_abs hn
      have : ((1 : Int) : ℚ) ≤ ((|n| : Int) : ℚ) := by exact_mod_cast this
      simpa using this
    obtain ⟨j, hj⟩ : ∃ j : ℕ, binade (n : ℚ) - 52 = -(j : Int) :=
      ⟨(52 - binade (n : ℚ)).toNat, by omega⟩
    rw [hj, zpow_neg, zpow_natCast]
    have hscaled : (n : ℚ) / ((2 : ℚ) ^ j)⁻¹ = ((n * 2 ^ j : Int) : ℚ) := by
      push_cast
      field_simp
    rw [hscaled, roundHalfEven_intCast]
    push_cast
    field_simp

/-- The value of a rounding to `float64`, from the binary exponent `e` of the number and the
integer `m` nearest to its significand. -/
theorem roundFloat64_eval (q : ℚ) (e m : Int) (hlo : (2 : ℚ) ^ e ≤ |q|)
    (hhi : |q| < (2 : ℚ) ^ (e + 1)) (hm : |q / 2 ^ (e - 52) - m| < 1 / 2) :
    roundFloat64 q = m * 2 ^ (e - 52) := by
  have hq : q ≠ 0 := by
    intro h0
    rw [h0, abs_zero] at hlo
    have : (0 : ℚ) < 2 ^ e := by positivity
    linarith
  have he : binade q = e := by
    have h1 := le_binade q hq e hlo
    have h2 := binade_lt q hq (e + 1) hhi
    omega
  unfold roundFloat64
  rw [if_neg hq, he, roundHalfEven_of_near _ m hm]

/-- A whole number of hours that fits in 53 bits is read back exactly by `Duration.Hours`. -/
theorem hours_of_whole (k : Int) (hk : |k| < 2 ^ 53) : Duration.Hours (k * Hour) = k := by
  have hH : Hour ≠ 0 := by decide
  have h1 : (k * Hour).tdiv Hour = k := Int.mul_tdiv_cancel k hH
  have h2 : (k * Hour).tmod Hour = 0 := Int.mul_tmod_left k Hour
  have h0 : roundFloat64 ((0 : Int) : ℚ) = ((0 : Int) : ℚ) := roundFloat64_intCast 0 (by norm_num)
  simp only [Int.cast_zero] at h0
  unfold Duration.Hours float64OfInt
  simp only [h1, h2, Int.cast_zero, h0, zero_div, add_zero, roundFloat64_intCast k hk]

/-- The sum of a small whole number of hours and the quotient of a positive remainder, as
`Duration.Hours` rounds them, lies strictly between that number of hours and the next. -/
theorem hours_fraction_pos (hour nsec : Int) (h0 : 0 ≤ hour) (h1 : hour ≤ 4095)
    (hn0 : 0 < nsec) (hn1 : nsec < Hour) :
    (hour : ℚ) < roundFloat64 (float64OfInt hour
        + roundFloat64 (float64OfInt nsec / 3600000000000)) ∧
      roundFloat64 (float64OfInt hour + roundFloat64 (float64OfInt nsec / 3600000000000))
        < hour + 1 := by
  have hhour : float64OfInt hour = hour := roundFloat64_intCast hour (by rw [abs_lt]; omega)
  have hnsec : float64OfInt nsec = nsec :=
    roundFloat64_intCast nsec (by rw [abs_lt]; simp only [Hour] at hn1; omega)
  rw [hhour, hnsec]
  have hn0' : (1 : ℚ) ≤ nsec := by exact_mod_cast hn0
  have hn1' : (nsec : ℚ) ≤ 3599999999999 := by
    simp only [Hour] at hn1
    have : nsec ≤ 3599999999999 := by omega
    exact_mod_cast this
  have h0' : (0 : ℚ) ≤ hour := by exact_mod_cast h0
  have h1' : (hour : ℚ) ≤ 4095 := by exact_mod_cast h1
  have hq1lo : (1 : ℚ) / 3600000000000 ≤ (nsec : ℚ) / 3600000000000 := by
    apply div_le_div_of_nonneg_right hn0' (by norm_num)
  have hq1hi : (nsec : ℚ) / 3600000000000 ≤ 3599999999999 / 3600000000000 := by
    apply div_le_div_of_nonneg_right hn1' (by norm_num)
  have hq1abs : |(nsec : ℚ) / 3600000000000| < (2 : ℚ) ^ (0 : Int) := by
    rw [abs_lt]; constructor <;> norm_num <;> linarith
  have hf := roundFloat64_error ((nsec : ℚ) / 3600000000000) 0 hq1abs
  rw [abs_le] at hf
  have hpow54 : (2 : ℚ) ^ ((0 : Int) - 54) = 1 / 18014398509481984 := by norm_num
  rw [hpow54] at hf
  set f := roundFloat64 ((nsec : ℚ) / 3600000000000) with hfdef
  have hsabs : |(hour : ℚ) + f| < (2 : ℚ) ^ (12 : Int) := by
    rw [abs_lt]; constructor <;> norm_num <;> linarith [hf.1, hf.2]
  have hx := roundFloat64_error ((hour : ℚ) + f) 12 hsabs
  rw [abs_le] at hx
  have hpow42 : (2 : ℚ) ^ ((12 : Int) - 54) = 1 / 4398046511104 := by norm_num
  rw [hpow42] at hx
  constructor
  · linarith [hf.1, hf.2, hx.1, hx.2]
  · linarith [hf.1, hf.2, hx.1, hx.2]

/-- The same below zero: with a negative remainder the rounded sum lies strictly between the
number of hours and the one before. -/
theorem hours_fraction_neg (hour nsec : Int) (h0 : hour ≤ 0) (h1 : -4095 ≤ hour)
    (hn0 : nsec < 0) (hn1 : -Hour < nsec) :
    (hour : ℚ) - 1 < roundFloat64 (float64OfInt hour
        + roundFloat64 (float64OfInt nsec / 3600000000000)) ∧
      roundFloat64 (float64OfInt hour + roundFloat64 (float64OfInt nsec / 3600000000000))
        < hour := by
  have hhour : float64OfInt hour = hour := roundFloat64_intCast hour (by rw [abs_lt]; omega)
  have hnsec : float64OfInt nsec = nsec :=
    roundFloat64_intCast nsec (by rw [abs_lt]; simp only [Hour] at hn1; omega)
  rw [hhour, hnsec]
  have hn0' : (nsec : ℚ) ≤ -1 := by
    have : nsec ≤ -1 := by omega
    exact_mod_cast this
  have hn1' : (-3599999999999 : ℚ) ≤ nsec := by
    simp only [Hour] at hn1
    have : -3599999999999 ≤ nsec := by omega
    exact_mod_cast this
  have h0' : (hour : ℚ) ≤ 0 := by exact_mod_cast h0
  have h1' : (-4095 : ℚ) ≤ hour := by exact_mod_cast h1
  have hq1hi : (nsec : ℚ) / 3600000000000 ≤ (-1) / 3600000000000 := by
    apply div_le_div_of_nonneg_right hn0' (by norm_num)
  have hq1lo : (-3599999999999 : ℚ) / 3600000000000 ≤ (nsec : ℚ) / 3600000000000 := by
    apply div_le_div_of_nonneg_right hn1' (by norm_num)
  have hq1abs : |(nsec : ℚ) / 3600000000000| < (2 : ℚ) ^ (0 : Int) := by
    rw [abs_lt]; constructor <;> norm_num <;> linarith
  have hf := roundFloat64_error ((nsec : ℚ) / 3600000000000) 0 hq1abs
  rw [abs_le] at hf
  have hpow54 : (2 : ℚ) ^ ((0 : Int) - 54) = 1 / 18014398509481984 := by norm_num
  rw [hpow54] at hf
  set f := roundFloat64 ((nsec : ℚ) / 3600000000000) with hfdef
  have hsabs : |(hour : ℚ) + f| < (2 : ℚ) ^ (12 : Int) := by
    rw [abs_lt]; constructor <;> norm_num <;> linarith [hf.1, hf.2]
  have hx := roundFloat64_error ((hour : ℚ) + f) 12 hsabs
  rw [abs_le] at hx
  have hpow42 : (2 : ℚ) ^ ((12 : Int) - 54) = 1 / 4398046511104 := by norm_num
  rw [hpow42] at hx
  constructor
  · linarith [hf.1, hf.2, hx.1, hx.2]
  · linarith [hf.1, hf.2, hx.1, hx.2]

/-- A difference that fits in 64 bits is returned by `Sub` as it is. -/
theorem sub_of_fits (t u : Time) (hlo : -(2 : Int) ^ 63 ≤ t - u) (hhi : t - u < (2 : Int) ^ 63) :
    Time.Sub t u = t - u := by
  unfold Time.Sub maxDuration minDuration
  unfold Time at *
  split_ifs <;> omega

/-- The conversion `int(x)` of a whole number. -/
theorem intOfFloat64_intCast (k : Int) : intOfFloat64 (k : ℚ) = k := by
  unfold intOfFloat64
  split_ifs <;> simp

/-- Quotient and remainder of Go's integer division by a positive number: they rebuild the
dividend and carry its sign, the remainder being smaller than the divisor. -/
theorem tdiv_tmod_facts (d n : Int) (hn : 0 < n) :
    n * d.tdiv n + d.tmod n = d ∧
    (0 ≤ d → 0 ≤ d.tmod n ∧ d.tmod n < n ∧ 0 ≤ d.tdiv n) ∧
    (d ≤ 0 → d.tmod n ≤ 0 ∧ -n < d.tmod n ∧ d.tdiv n ≤ 0) := by
  refine ⟨Int.tdiv_add_tmod d n, ?_, ?_⟩
  · intro hd
    exact ⟨Int.tmod_nonneg n hd, Int.tmod_lt_of_pos d hn, Int.tdiv_nonneg hd hn.le⟩
  · intro hd
    have hneg : 0 ≤ -d := by omega
    have h1 := Int.tmod_nonneg n hneg
    have h2 := Int.tmod_lt_of_pos (-d) hn
    have h3 := Int.tdiv_nonneg hneg hn.le
    have h4 : (-d).tdiv n = -(d.tdiv n) := Int.neg_tdiv d n
    have h5 : (-d).tmod n = -(d.tmod n) := by
      rw [Int.tmod_def, Int.tmod_def, h4]
      ring
    rw [h5] at h1 h2
    rw [h4] at h3
    omega

/-- A window of a whole number `k` of hours, up to 2562047 either way, has
`GetDurationHours = k`. -/
theorem getDurationHours_whole (b : Booking) (k : Int) (hk : |k| ≤ 2562047)
    (hd : b.EndTime - b.StartTime = k * Hour) : b.GetDurationHours = k := by
  rw [abs_le] at hk
  have hsub : Time.Sub b.EndTime b.StartTime = k * Hour := by
    rw [sub_of_fits, hd]
    · rw [hd]; simp only [Hour]; unfold Time at *; norm_num; omega
    · rw [hd]; simp only [Hour]; unfold Time at *; norm_num; omega
  have hk53 : |k| < 2 ^ 53 := by rw [abs_lt]; norm_num; omega
  unfold Booking.GetDurationHours Booking.GetDuration
  simp only [hsub, hours_of_whole k hk53, intOfFloat64_intCast, float64OfInt,
    roundFloat64_intCast k hk53, gt_iff_lt, lt_self_iff_false, if_false]

/-- A window shorter than 4096 hours either way has for `GetDurationHours` the ceiling of its
length in hours. -/
theorem getDurationHours_short (b : Booking)
    (hshort : |b.EndTime - b.StartTime| < 4096 * Hour) :
    b.GetDurationHours = ⌈((b.EndTime - b.StartTime : Int) : ℚ) / 3600000000000⌉ := by
  rw [abs_lt] at hshort
  have hsub : Time.Sub b.EndTime b.StartTime = b.EndTime - b.StartTime := by
    apply sub_of_fits
    · have := hshort.1; simp only [Hour] at this; unfold Time at *; norm_num; omega
    · have := hshort.2; simp only [Hour] at this; unfold Time at *; norm_num; omega
  unfold Booking.GetDurationHours Booking.GetDuration Duration.Hours
  simp only [hsub]
  generalize b.EndTime - b.StartTime = d at hshort ⊢
  unfold Time at *
  simp only [Hour] at hshort ⊢
  obtain ⟨hdlo, hdhi⟩ := hshort
  obtain ⟨hdecomp, hnonneg, hnonpos⟩ := tdiv_tmod_facts d 3600000000000 (by norm_num)
  have hdq : (d : ℚ) = 3600000000000 * (d.tdiv 3600000000000 : Int)
      + (d.tmod 3600000000000 : Int) := by exact_mod_cast hdecomp.symm
  have hfl : float64OfInt (d.tdiv 3600000000000) = (d.tdiv 3600000000000 : Int) := by
    apply roundFloat64_intCast
    rw [abs_lt]
    norm_num
    rcases le_total 0 d with hd | hd
    · have := hnonneg hd; omega
    · have := hnonpos hd; omega
  rcases lt_trichotomy (d.tmod 3600000000000) 0 with hneg | hzero | hpos
  · -- a negative remainder: the duration is negative
    have hdneg : d ≤ 0 := by
      by_contra hnn
      have := hnonneg (by omega)
      omega
    obtain ⟨-, hrem, hquot⟩ := hnonpos hdneg
    have hbounds := hours_fraction_neg (d.tdiv 3600000000000) (d.tmod 3600000000000)
      hquot (by omega) hneg (by simpa [Hour] using hrem)
    obtain ⟨hxlo, hxhi⟩ := hbounds
    set x := roundFloat64 (float64OfInt (d.tdiv 3600000000000)
      + roundFloat64 (float64OfInt (d.tmod 3600000000000) / 3600000000000)) with hx
    have hq0 : ((d.tdiv 3600000000000 : Int) : ℚ) ≤ 0 := by exact_mod_cast hquot
    have hxneg : ¬ (0 : ℚ) ≤ x := by linarith
    have hceilx : ⌈x⌉ = d.tdiv 3600000000000 := by
      rw [Int.ceil_eq_iff]
      constructor <;> linarith
    have hnot : ¬ x > ((d.tdiv 3600000000000 : Int) : ℚ) := by linarith
    simp only [intOfFloat64, hxneg, if_false, hceilx, hfl, hnot]
    symm
    rw [Int.ceil_eq_iff]
    have hr1 : ((d.tmod 3600000000000 : Int) : ℚ) < 0 := by exact_mod_cast hneg
    have hr2 : (-3600000000000 : ℚ) < (d.tmod 3600000000000 : Int) := by exact_mod_cast hrem
    constructor
    · rw [lt_div_iff₀ (by norm_num)]; linarith
    · rw [div_le_iff₀ (by norm_num)]; linarith
  · -- no remainder: a whole number of hours
    rw [hzero, add_zero] at hdecomp
    have hkb : |d.tdiv 3600000000000| < 2 ^ 53 := by rw [abs_lt]; norm_num; omega
    have h0 : roundFloat64 ((0 : Int) : ℚ) = ((0 : Int) : ℚ) :=
      roundFloat64_intCast 0 (by norm_num)
    simp only [Int.cast_zero] at h0
    simp only [hzero, float64OfInt, Int.cast_zero, h0, zero_div, add_zero,
      roundFloat64_intCast _ hkb, intOfFloat64_intCast, gt_iff_lt, lt_self_iff_false, if_false]
    symm
    rw [Int.ceil_eq_iff]
    have hdq' : (d : ℚ) = 3600000000000 * (d.tdiv 3600000000000 : Int) := by
      exact_mod_cast hdecomp.symm
    constructor
    · rw [lt_div_iff₀ (by norm_num)]; linarith
    · rw [div_le_iff₀ (by norm_num)]; linarith
  · -- a positive remainder: the duration is positive
    have hdpos : 0 ≤ d := by
      by_contra hnp
      have := hnonpos (by omega)
      omega
    obtain ⟨-, hrem, hquot⟩ := hnonneg hdpos
    have hbounds := hours_fraction_pos (d.tdiv 3600000000000) (d.tmod 3600000000000)
      hquot (by omega) hpos (by simpa [Hour] using hrem)
    obtain ⟨hxlo, hxhi⟩ := hbounds
    set x := roundFloat64 (float64OfInt (d.tdiv 3600000000000)
      + roundFloat64 (float64OfInt (d.tmod 3600000000000) / 3600000000000)) with hx
    have hq0 : (0 : ℚ) ≤ (d.tdiv 3600000000000 : Int) := by exact_mod_cast hquot
    have hxpos : (0 : ℚ) ≤ x := by linarith
    have hfloorx : ⌊x⌋ = d.tdiv 3600000000000 := by
      rw [Int.floor_eq_iff]
      constructor <;> linarith
    have hgt : x > ((d.tdiv 3600000000000 : Int) : ℚ) := hxlo
    simp only [intOfFloat64, hxpos, if_true, hfloorx, hfl, hgt]
    symm
    rw [Int.ceil_eq_iff]
    have hr1 : (0 : ℚ) < (d.tmod 3600000000000 : Int) := by exact_mod_cast hpos
    have hr2 : ((d.tmod 3600000000000 : Int) : ℚ) < 3600000000000 := by exact_mod_cast hrem
    push_cast
    constructor
    · rw [lt_div_iff₀ (by norm_num)]; linarith
    · rw [div_le_iff₀ (by norm_num)]; linarith

/-- The quotient `1 / 3.6e12`, rounded to `float64`. -/
theorem roundFloat64_one_nanosecond :
    roundFloat64 ((1 : ℚ) / 3600000000000) = 5501955730157246 * 2 ^ (-94 : Int) := by
  have h := roundFloat64_eval ((1 : ℚ) / 3600000000000) (-42) 5501955730157246
    (by rw [abs_of_pos (by norm_num)]; norm_num)
    (by rw [abs_of_pos (by norm_num)]; norm_num)
    (by rw [abs_lt]; constructor <;> norm_num)
  rw [h]
  norm_num

/-- C20 as stated fails. A booking from 00:00 to 4096 hours and one nanosecond later has a
length of more than 4096 hours, whose ceiling in hours is 4097, but `GetDurationHours`
returns 4096: the quotient of one nanosecond by an hour is lost when it is added to 4096 in
`float64`. -/
theorem getDurationHours_loses_a_nanosecond :
    (sampleBooking 1 1 0 (4096 * Hour + 1) .CONFIRMED).GetDurationHours = 4096 ∧
    ⌈(((4096 * Hour + 1 - 0 : Int) : ℚ)) / ((Hour : Int) : ℚ)⌉ = 4097 := by
  constructor
  · have hsub : Time.Sub (4096 * Hour + 1) 0 = 14745600000000001 := by decide
    have hdiv : (14745600000000001 : Int).tdiv Hour = 4096 := by decide
    have hmod : (14745600000000001 : Int).tmod Hour = 1 := by decide
    have h4096 : roundFloat64 ((4096 : Int) : ℚ) = ((4096 : Int) : ℚ) :=
      roundFloat64_intCast 4096 (by norm_num)
    have h1 : roundFloat64 ((1 : Int) : ℚ) = ((1 : Int) : ℚ) :=
      roundFloat64_intCast 1 (by norm_num)
    have hsum : roundFloat64 ((4096 : ℚ) + 5501955730157246 * 2 ^ (-94 : Int)) = 4096 := by
      have h := roundFloat64_eval ((4096 : ℚ) + 5501955730157246 * 2 ^ (-94 : Int)) 12
        4503599627370496
        (by rw [abs_of_pos (by norm_num)]; norm_num)
        (by rw [abs_of_pos (by norm_num)]; norm_num)
        (by rw [abs_lt]; constructor <;> norm_num)
      rw [h]
      norm_num
    have hhours : Duration.Hours 14745600000000001 = 4096 := by
      unfold Duration.Hours float64OfInt
      simp only [hdiv, hmod, h4096, h1]
      norm_num
      rw [roundFloat64_one_nanosecond]
      exact hsum
    have hint : intOfFloat64 (4096 : ℚ) = 4096 := by
      have := intOfFloat64_intCast 4096
      simpa using this
    unfold Booking.GetDurationHours Booking.GetDuration
    simp only [sampleBooking, hsub, hhours, hint, float64OfInt]
    have h4096' : roundFloat64 (4096 : ℚ) = 4096 := by simpa using h4096
    simp [h4096']
  · rw [Int.ceil_eq_iff]
    simp only [Hour]
    constructor <;> norm_num

/-- C20, as the code has it. For a booking whose window is shorter than 4096 hours either way,
or is a whole number of hours that fits in 64-bit nanoseconds (up to 2562047 either way),
`GetDurationHours` is the ceiling of `EndTime - StartTime` in hours; and a booking returned by
a successful `CreateBooking` with `0 < durationHours <= 2562047` has
`GetDurationHours = durationHours` and a `TotalPrice` equal to `CalculatePrice` of the field
at `GetDurationHours`. -/
theorem getDurationHours_ceiling_and_created {σ : Type} (b : Booking)
    (hwindow : |b.EndTime - b.StartTime| < 4096 * Hour ∨
      ∃ k : Int, |k| ≤ 2562047 ∧ b.EndTime - b.StartTime = k * Hour)
    (u : bookingService σ) (clock : Clock) (store : σ) (userID fieldID : Int)
    (startTime : Time) (durationHours : Int) (created : Booking)
    (hpos : 0 < durationHours) (hfit : durationHours ≤ 2562047)
    (hok : (u.CreateBooking clock store userID fieldID startTime durationHours).result
      = .ok created) :
    b.GetDurationHours = ⌈((b.EndTime - b.StartTime : Int) : ℚ) / ((Hour : Int) : ℚ)⌉ ∧
    created.GetDurationHours = durationHours ∧
    ∃ field, u.fieldRepo.FindByID store fieldID = .ok field ∧
      created.TotalPrice = field.CalculatePrice created.GetDurationHours := by
  refine ⟨?_, ?_⟩
  · rcases hwindow with hshort | ⟨k, hk, hd⟩
    · rw [getDurationHours_short b hshort]
      simp [Hour]
    · rw [getDurationHours_whole b k hk hd, hd]
      symm
      rw [Int.ceil_eq_iff]
      have hH : ((Hour : Int) : ℚ) ≠ 0 := by simp [Hour]
      push_cast
      rw [mul_div_assoc, div_self hH]
      constructor <;> linarith
  · obtain ⟨field, bookingID, paymentID, store1, store2, store3, -, -, -, -, hfield, -, -, -, -,
      hb, -, -⟩ := createBooking_ok_inv u clock store userID fieldID startTime durationHours
        created hok
    have hd : created.EndTime - created.StartTime = durationHours * Hour := by
      rw [hb]
      show startTime + wrapInt64 (durationHours * Hour) - startTime = durationHours * Hour
      rw [wrapInt64_hours durationHours hpos hfit]
      unfold Time at *
      omega
    have hdur : created.GetDurationHours = durationHours :=
      getDurationHours_whole created durationHours (by rw [abs_le]; omega) hd
    refine ⟨hdur, field, hfield, ?_⟩
    rw [hdur, hb]
    rfl

/-- Witness of C20 as amended: a 90-minute booking, whose `GetDurationHours` is 2, and the
two-hour booking `CreateBooking` returns on a field priced 100000. -/
theorem getDurationHours_ceiling_and_created_witness :
    (|(sampleBooking 1 1 (clockTime 9 0) (clockTime 10 30) .CONFIRMED).EndTime
        - (sampleBooking 1 1 (clockTime 9 0) (clockTime 10 30) .CONFIRMED).StartTime|
        < 4096 * Hour ∨
      ∃ k : Int, |k| ≤ 2562047 ∧
        (sampleBooking 1 1 (clockTime 9 0) (clockTime 10 30) .CONFIRMED).EndTime
          - (sampleBooking 1 1 (clockTime 9 0) (clockTime 10 30) .CONFIRMED).StartTime
          = k * Hour) ∧
    (0 : Int) < 2 ∧ (2 : Int) ≤ 2562047 ∧
    ((answeringService sampleField 7 3).CreateBooking eightOClock 0 5 1 (clockTime 10 0) 2).result
      = .ok { ID := 7, UserID := 5, FieldID := 1, StartTime := clockTime 10 0,
              EndTime := clockTime 12 0, TotalPrice := 200000, Status := .PENDING,
              PaymentID := some 3, CreatedAt := clockTime 8 0 } ∧
    ((sampleBooking 1 1 (clockTime 9 0) (clockTime 10 30) .CONFIRMED).GetDurationHours
      = ⌈(((sampleBooking 1 1 (clockTime 9 0) (clockTime 10 30) .CONFIRMED).EndTime
            - (sampleBooking 1 1 (clockTime 9 0) (clockTime 10 30) .CONFIRMED).StartTime : Int)
            : ℚ) / ((Hour : Int) : ℚ)⌉ ∧
    ({ ID := 7, UserID := 5, FieldID := 1, StartTime := clockTime 10 0,
       EndTime := clockTime 12 0, TotalPrice := 200000, Status := .PENDING,
       PaymentID := some 3, CreatedAt := clockTime 8 0 } : Booking).GetDurationHours = 2 ∧
    ∃ field, (answeringService sampleField 7 3).fieldRepo.FindByID 0 1 = .ok field ∧
      ({ ID := 7, UserID := 5, FieldID := 1, StartTime := clockTime 10 0,
         EndTime := clockTime 12 0, TotalPrice := 200000, Status := .PENDING,
         PaymentID := some 3, CreatedAt := clockTime 8 0 } : Booking).TotalPrice
        = field.CalculatePrice
          ({ ID := 7, UserID := 5, FieldID := 1, StartTime := clockTime 10 0,
             EndTime := clockTime 12 0, TotalPrice := 200000, Status := .PENDING,
             PaymentID := some 3, CreatedAt := clockTime 8 0 } : Booking).GetDurationHours) :=
  ⟨Or.inl (by decide), by decide, by decide, rfl,
   getDurationHours_ceiling_and_created
     (sampleBooking 1 1 (clockTime 9 0) (clockTime 10 30) .CONFIRMED) (Or.inl (by decide))
     (answeringService sampleField 7 3) eightOClock 0 5 1 (clockTime 10 0) 2 _
     (by decide) (by decide) rfl⟩

/-! ## A booking in progress -/

/-- A booking in progress is CONFIRMED and `now` lies strictly inside its window. -/
theorem isActive_window (b : Booking) (now : Time) (h : b.IsActive now = true) :
    b.Status = .CONFIRMED ∧ b.StartTime < now ∧ now < b.EndTime := by
  simp only [Booking.IsActive, Bool.and_eq_true, beq_iff_eq, decide_eq_true_eq, gt_iff_lt] at h
  exact ⟨h.1.1, h.1.2, h.2⟩

/-- Once its start has passed, a booking cannot be cancelled, whatever its status. -/
theorem canBeCancelled_false_after_start (b : Booking) (now : Time) (h : b.StartTime < now) :
    b.CanBeCancelled now = false := by
  unfold Booking.CanBeCancelled Time.Sub maxDuration minDuration
  unfold Time at *
  simp only [Hour]
  split_ifs <;> simp <;> omega

/-- C21. `IsActive` and `CanBeCancelled` are never both true at the same instant: a booking in
progress (CONFIRMED, with `StartTime < now < EndTime`) cannot be cancelled, since its start is
not more than two hours ahead. -/
theorem isActive_excludes_canBeCancelled (b : Booking) (now : Time) :
    ¬ (b.IsActive now = true ∧ b.CanBeCancelled now = true) ∧
    (b.IsActive now && b.CanBeCancelled now) = false := by
  have hboth : ¬ (b.IsActive now = true ∧ b.CanBeCancelled now = true) := by
    rintro ⟨h1, h2⟩
    rw [canBeCancelled_false_after_start b now (isActive_window b now h1).2.1] at h2
    exact Bool.false_ne_true h2
  refine ⟨hboth, ?_⟩
  rw [Bool.and_eq_false_iff]
  by_cases hact : b.IsActive now = true
  · exact Or.inr (canBeCancelled_false_after_start b now (isActive_window b now hact).2.1)
  · exact Or.inl (by simpa using hact)

/-- A CONFIRMED booking for 09:00-10:00 read at 09:30 is in progress and cannot be cancelled;
read at 06:00 it is not in progress and can be cancelled. -/
theorem isActive_and_canBeCancelled_samples :
    (sampleBooking 1 1 (clockTime 9 0) (clockTime 10 0) .CONFIRMED).IsActive (clockTime 9 30)
      = true ∧
    (sampleBooking 1 1 (clockTime 9 0) (clockTime 10 0) .CONFIRMED).CanBeCancelled
      (clockTime 9 30) = false ∧
    (sampleBooking 1 1 (clockTime 9 0) (clockTime 10 0) .CONFIRMED).IsActive (clockTime 6 0)
      = false ∧
    (sampleBooking 1 1 (clockTime 9 0) (clockTime 10 0) .CONFIRMED).CanBeCancelled
      (clockTime 6 0) = true := by
  decide

end FutsalBooking
